import Mathlib

/-!
# ElasticSearchCRUD: a gateway in front of a document search engine

A shallow embedding of `mainMedium.go`: the Engine Client (`CheckHealth`,
`CreateIndex`, `InsertData`, `SeedingData`, `SearchData`, `UpdateData`,
`DeleteData`) and the HTTP Gateway handlers.

Conventions of the embedding.

* A Go pointer `*T` is an `Option T`; `none` is the nil pointer.
* A Go function that returns `error` (or a value and an `error`) becomes a
  function into `Result`, which also records a run-time panic.
* The outside world is explicit.  What the libraries and the engine answer is
  an `Env`; what the program has done so far (requests handed to the transport,
  log lines, standard output) is a `World`, threaded through every operation.
* Go `int` is 64 bits wide; it is an `Int` here, with `wrap64` where the
  source's arithmetic can overflow.
-/

namespace ElasticCRUD

/-! ## Floating point -/

/-- A finite `float64`: the rational number it denotes, or negative zero, which
denotes 0 but is a value of its own (`ofRat 0` is positive zero). NaN and the
infinities are left out: no `float64` of the program can hold one, as the JSON
decoder rejects them and the conversion of an `int` does not produce them. -/
inductive Float64 where
  | ofRat (q : ℚ)
  | negZero
  deriving DecidableEq

/-- The rational number that a finite `float64` denotes. -/
def Float64.toRat : Float64 → ℚ
  | .ofRat q => q
  | .negZero => 0

/-! ## JSON values -/

/-- A JSON document.  `num` holds a number by its literal text, `float` a
`float64` value that the encoder renders in its shortest decimal form. -/
inductive Json where
  | null
  | bool (b : Bool)
  | num (lit : String)
  | float (x : Float64)
  | str (s : String)
  | arr (items : List Json)
  | obj (members : List (String × Json))

/-! ## Errors, panics and results -/

/-- A Go `error` value, by dynamic type.  `errorString` is `*errors.errorString`,
what `errors.New` and `fmt.Errorf` (without `%w`) return: a struct whose only
field is unexported.  `library` is an error built by `net/http`, `net/url`,
`io` or `encoding/json`, given by its `Error()` text and by the JSON document
that `encoding/json` writes for it (the exported fields of its dynamic type). -/
inductive GoError where
  | errorString (s : String)
  | library (msg : String) (encoding : Json)

/-- The method `Error()`. -/
def GoError.Error : GoError → String
  | .errorString s => s
  | .library msg _ => msg

/-- What `encoding/json` writes for an `error` held in an interface: the
exported fields of the dynamic type, none for `*errors.errorString`. -/
def GoError.toJson : GoError → Json
  | .errorString _ => Json.obj []
  | .library _ encoding => encoding

/-- The call `fmt.Errorf(pre + "%v", err)`: a fresh `*errors.errorString` whose
text is the format's literal part followed by `err.Error()`. -/
def Errorf (pre : String) (err : GoError) : GoError :=
  .errorString (pre ++ err.Error)

/-- Run-time panics of the Go runtime. -/
inductive Panic where
  | nilDereference
  | indexOutOfRange (index length : Nat)
  deriving DecidableEq, Repr

/-- How a Go call ends: it returns a value with a nil error, returns a non-nil
error, or panics. -/
inductive Result (α : Type) where
  | ok (a : α)
  | err (e : GoError)
  | panic (p : Panic)

/-! ## Integers -/

/-- Two's complement wrap-around of a 64-bit `int`. -/
def wrap64 (x : Int) : Int := (x + 2 ^ 63) % 2 ^ 64 - 2 ^ 63

/-- Largest `int`. -/
def maxInt64 : Int := 2 ^ 63 - 1

/-- Smallest `int`. -/
def minInt64 : Int := -(2 ^ 63)

/-- The decimal digit `d` as a character. -/
def digitChar (d : Nat) : Char := Char.ofNat (48 + d % 10)

/-- Decimal digits of `n`, most significant first, written in front of `acc`.
`fuel` bounds the number of digits. -/
def natDigits : Nat → Nat → List Char → List Char
  | 0, _, acc => acc
  | fuel + 1, n, acc =>
    if n < 10 then digitChar n :: acc
    else natDigits fuel (n / 10) (digitChar (n % 10) :: acc)

/-- The base-10 rendering of a natural number. -/
def natToDecimal (n : Nat) : String := String.mk (natDigits (n + 1) n [])

/-- The function `strconv.Itoa`: base 10, a leading `-` for negative values. -/
def Itoa (i : Int) : String :=
  match i with
  | .ofNat n => natToDecimal n
  | .negSucc n => "-" ++ natToDecimal (n + 1)

/-- The value of a decimal digit character, if it is one (`ch -= '0'; ch > 9`). -/
def digitValue (ch : Char) : Option Nat :=
  if 48 ≤ ch.toNat ∧ ch.toNat ≤ 57 then some (ch.toNat - 48) else none

/-- The number that a list of decimal digits denotes, after the value `n` of the
digits before them; nothing when a character is not a digit. -/
def parseDigits : List Char → Nat → Option Nat
  | [], n => some n
  | ch :: rest, n =>
    match digitValue ch with
    | none => none
    | some d => parseDigits rest (n * 10 + d)

/-- Largest `uint64`. -/
def maxUint64 : Nat := 2 ^ 64 - 1

/-- How the digit loop of `strconv.ParseUint` ends. -/
inductive UintResult where
  | value (n : Nat)
  | rangeError
  | syntaxError
  deriving DecidableEq

/-- The digit loop of `strconv.ParseUint` in base 10 on 64 bits, from the value
`n` read so far. A character that is not a digit is a syntax error. A digit
that takes the value past `maxUint64` is a range error, returned at once: the
characters after it are not read. -/
def parseUintLoop : List Char → Nat → UintResult
  | [], n => .value n
  | ch :: rest, n =>
    match digitValue ch with
    | none => .syntaxError
    | some d =>
      if maxUint64 / 10 + 1 ≤ n then .rangeError
      else if maxUint64 < n * 10 + d then .rangeError
      else parseUintLoop rest (n * 10 + d)

/-- The function `strconv.Atoi` on 64-bit `int`: the value and whether an error
is returned. It behaves as `strconv.ParseInt(s, 10, 0)`, with which its fast
path for short strings agrees. An empty string, a lone sign or a character that
is not a digit gives `(0, error)`; a value out of range gives the nearest bound
and an error, also when the digits that overflow `uint64` are followed by other
characters. -/
def Atoi (s : String) : Int × Bool :=
  match s.data with
  | [] => (0, true)
  | c :: rest =>
    let neg := c = '-'
    let digits := if c = '+' ∨ c = '-' then rest else c :: rest
    match digits with
    | [] => (0, true)
    | d :: ds =>
      match parseUintLoop (d :: ds) 0 with
      | .syntaxError => (0, true)
      | .rangeError => if neg then (minInt64, true) else (maxInt64, true)
      | .value un =>
        if neg then
          if 2 ^ 63 < (un : Int) then (minInt64, true) else (-(un : Int), false)
        else
          if 2 ^ 63 ≤ (un : Int) then (maxInt64, true) else ((un : Int), false)

/-! ## Conversion of integers to floating point -/

/-- The conversion `float64(k)` of an `int`: exact below `2^53`, otherwise
rounded to 53 significant bits, ties to even. The integer 0 gives positive
zero. -/
def float64OfInt (k : Int) : Float64 :=
  let a := k.natAbs
  if a < 2 ^ 53 then .ofRat (k : ℚ)
  else
    let drop := Nat.log2 a - 52
    let q := a / 2 ^ drop
    let r := a % 2 ^ drop
    let half := 2 ^ (drop - 1)
    let m := if half < r ∨ (r = half ∧ q % 2 = 1) then q + 1 else q
    if k < 0 then .ofRat (-((m * 2 ^ drop : Nat) : ℚ)) else .ofRat ((m * 2 ^ drop : Nat) : ℚ)

/-! ## The data model -/

/-- The record `Employee`.  `Salary` is a finite `float64`: every `Employee` of
the program comes from the JSON decoder or from `SeedingData`, neither of which
produces NaN or an infinity. -/
structure Employee where
  Id : Int
  Name : String
  Address : String
  Salary : Float64
  deriving DecidableEq

/-- The zero value of `Employee`. -/
def Employee.zero : Employee := ⟨0, "", "", .ofRat 0⟩

/-- What `json.Marshal` writes for an `Employee`, by the struct tags. -/
def Employee.toJson (e : Employee) : Json :=
  .obj [("id", .num (Itoa e.Id)), ("name", .str e.Name),
        ("address", .str e.Address), ("salary", .float e.Salary)]

/-- What `json.Marshal` writes for a `*Employee`: `null` for the nil pointer. -/
def marshalEmployeePtr : Option Employee → Json
  | none => .null
  | some e => e.toJson

/-- One element of `SearchHits.Hits.Hits`: a struct with the pointer `Source`. -/
structure Hit where
  Source : Option Employee
  deriving DecidableEq

/-- The type `SearchHits`; `Hits` is the slice `Hits.Hits` of pointers to hits. -/
structure SearchHits where
  Hits : List (Option Hit)
  deriving DecidableEq

/-- The struct `elasticsearch.Config`, as far as the program uses it. -/
structure Config where
  Addresses : List String
  Username : String
  Password : String
  deriving DecidableEq

/-- The type `Client`. -/
structure Client where
  cfg : Config
  deriving DecidableEq

/-- The constructor `NewClient`: the password is the value the function has just
stored in the environment variable, which is not empty. -/
def NewClient (_host : String) : Client :=
  ⟨⟨["http://localhost:9200"], "elastic", "ELASTIC_PASSWORD"⟩⟩

/-! ## Requests, responses and the world -/

/-- The body handed to `http.NewRequest`: `nil`, the bytes `json.Marshal`
produced for a value, or literal text. -/
inductive Body where
  | none
  | marshalled (v : Json)
  | text (s : String)

/-- An outgoing `*http.Request`. -/
structure Request where
  Method : String
  URL : String
  Body : Body
  BasicAuth : Option (String × String)
  Header : List (String × String)

/-- The method `SetBasicAuth`. -/
def Request.SetBasicAuth (r : Request) (username password : String) : Request :=
  { r with BasicAuth := some (username, password) }

/-- The call `req.Header.Add`. -/
def Request.HeaderAdd (r : Request) (key value : String) : Request :=
  { r with Header := r.Header ++ [(key, value)] }

/-- The engine's answer: its status code and what `ioutil.ReadAll` gives for
its body. -/
structure Response where
  StatusCode : Nat
  Body : Except GoError String

/-- What the program has done so far. -/
structure World where
  /-- Requests handed to the transport, oldest first. -/
  sent : List Request
  /-- Lines given to `log.Println`, each by its operands. -/
  logged : List (List String)
  /-- Text written to standard output. -/
  stdout : List String

/-- The world before anything happened. -/
def World.init : World := ⟨[], [], []⟩

/-- The call `log.Println` with these operands. -/
def World.log (w : World) (operands : List String) : World :=
  { w with logged := w.logged ++ [operands] }

/-- A write to standard output. -/
def World.print (w : World) (s : String) : World :=
  { w with stdout := w.stdout ++ [s] }

/-- The libraries and the engine, as the program sees them. -/
structure Env where
  /-- The error of `http.NewRequest` for a method and a URL, if it fails. -/
  newRequestErr : String → String → Option GoError
  /-- The transport: the answer to a request, given the requests sent before. -/
  roundTrip : List Request → Request → Except GoError Response
  /-- The call `json.Unmarshal(responseBody, &searchHits)`. -/
  unmarshal : String → Except GoError SearchHits
  /-- The pointer `employee` after `json.NewDecoder(r.Body).Decode(&employee)`
  on a nil pointer: still nil when the body is empty, is not valid JSON or is
  `null`; otherwise a fresh `Employee` whose fields the body does not set are
  zero. -/
  decode : String → Option Employee

/-- The call `http.NewRequest(method, url, body)`: a request, or an error and a
nil request. -/
def NewRequest (env : Env) (method url : String) (body : Body) : Except GoError Request :=
  match env.newRequestErr method url with
  | some e => .error e
  | none => .ok ⟨method, url, body, none, []⟩

/-- The call `httpClient.Do(req)`: the request goes to the transport and is
recorded. -/
def Do (env : Env) (w : World) (req : Request) : Except GoError Response × World :=
  (env.roundTrip w.sent req, { w with sent := w.sent ++ [req] })

/-! ## The Engine Client -/

/-- The method `CheckHealth`.  The request is checked before it is used, and the
errors of request construction and of the transport are returned as they are. -/
def CheckHealth (env : Env) (c : Client) (w : World) : Result Unit × World :=
  match c.cfg.Addresses with
  | [] => (.panic (.indexOutOfRange 0 0), w)
  | base :: _ =>
    match NewRequest env "GET" base .none with
    | .error err => (.err err, w)
    | .ok req =>
      let req := req.SetBasicAuth c.cfg.Username c.cfg.Password
      match Do env w req with
      | (.error err, w) => (.err err, w)
      | (.ok response, w) =>
        match response.Body with
        | .error err => (.err (Errorf "failed check Elasticsearch health: " err), w)
        | .ok responseBody =>
          (.ok (), w.log ["debug health check response: ", responseBody])

/-- The mapping that `CreateIndex` sends. -/
def createIndexBody : String :=
  "\n\t\x7b\n\t\t\"mappings\": \x7b\n\t\t\t\"properties\": \x7b\n\t\t\t\t\"id\": \x7b\n\t\t\t\t\t\"type\": \"integer\"\n\t\t\t\t\x7d,\n\t\t\t\t\"name\": \x7b\n\t\t\t\t\t\"type\": \"text\"\n\t\t\t\t\x7d,\n\t\t\t\t\"address\": \x7b\n\t\t\t\t\t\"type\": \"text\"\n\t\t\t\t\x7d,\n\t\t\t\t\"salary\": \x7b\n\t\t\t\t\t\"type\": \"float\"\n\t\t\t\t\x7d\n\t\t\t\x7d\n\t\t\x7d\n\t\x7d\n\t"

/-- The method `CreateIndex`.  `req.SetBasicAuth` runs before `err` is looked
at, so a failed `http.NewRequest` (a nil `req`) ends in a nil dereference. -/
def CreateIndex (env : Env) (c : Client) (w : World) : Result Unit × World :=
  match c.cfg.Addresses with
  | [] => (.panic (.indexOutOfRange 0 0), w)
  | base :: _ =>
    match NewRequest env "PUT" (base ++ "/employee") (.text createIndexBody) with
    | .error _ => (.panic .nilDereference, w)
    | .ok req =>
      let req := req.SetBasicAuth c.cfg.Username c.cfg.Password
      let req := req.HeaderAdd "Content-type" "application/json"
      match Do env w req with
      | (.error err, w) =>
        (.err (Errorf "failed to make a http call to create an index: " err), w)
      | (.ok response, w) =>
        match response.Body with
        | .error err => (.err (Errorf "failed read create index response: " err), w)
        | .ok responseBody =>
          (.ok (), w.log ["debug create index response: ", responseBody])

/-- The method `InsertData`.  `e.Id` dereferences `e`. -/
def InsertData (env : Env) (c : Client) (e : Option Employee) (w : World) :
    Result Unit × World :=
  let body := marshalEmployeePtr e
  match e with
  | none => (.panic .nilDereference, w)
  | some emp =>
    let id := Itoa emp.Id
    match c.cfg.Addresses with
    | [] => (.panic (.indexOutOfRange 0 0), w)
    | base :: _ =>
      match NewRequest env "PUT" (base ++ "/employee/_doc/" ++ id) (.marshalled body) with
      | .error _ => (.panic .nilDereference, w)
      | .ok req =>
        let req := req.SetBasicAuth c.cfg.Username c.cfg.Password
        let req := req.HeaderAdd "Content-type" "application/json"
        match Do env w req with
        | (.error err, w) =>
          (.err (Errorf "failed to make a http call to insert data: " err), w)
        | (.ok response, w) =>
          match response.Body with
          | .error err => (.err (Errorf "failed read insert data response: " err), w)
          | .ok responseBody =>
            (.ok (), w.log ["debug insert data response: ", responseBody])

/-- The record that `SeedingData` builds for the id `i`: `i * 100` is computed
on 64-bit integers and then converted to `float64`. -/
def seedEmployee (i : Int) : Employee :=
  ⟨i, "person" ++ Itoa i, "address" ++ Itoa i, float64OfInt (wrap64 (i * 100))⟩

/-- The loop of `SeedingData`, from the current value of `i`.  As `i < n` holds
in the body and `n` is an `int`, the step `i++` does not overflow. -/
def seedLoop (env : Env) (c : Client) (n : Int) (i : Int) (w : World) : Result Unit × World :=
  if i < n then
    match InsertData env c (some (seedEmployee i)) w with
    | (.ok _, w) => seedLoop env c n (i + 1) w
    | (.err err, w) =>
      (.err (Errorf ("failed seeding data with id " ++ Itoa i ++ ": ") err), w)
    | (.panic p, w) => (.panic p, w)
  else (.ok (), w)
termination_by (n - i).toNat
decreasing_by omega

/-- The method `SeedingData`. -/
def SeedingData (env : Env) (c : Client) (idStart n : Int) (w : World) : Result Unit × World :=
  seedLoop env c n idStart w

/-- The text before the keyword in the query of `SearchData`. -/
def searchQueryHead : String :=
  "\n\t\x7b\n\t\t\"query\": \x7b\n\t\t\t\"match\": \x7b\n\t\t\t\t\"name\": \""

/-- The text after the keyword in the query of `SearchData`. -/
def searchQueryTail : String :=
  "\"\n\t\t\t\x7d\n\t\t\x7d\n\t\x7d\n\t"

/-- The query of `SearchData`: `fmt.Sprintf` with one `%s`, which puts the
keyword in as it is. -/
def searchQuery (keyword : String) : String :=
  searchQueryHead ++ keyword ++ searchQueryTail

/-- The loop `for _, hit := range searchHits.Hits.Hits` of `SearchData`:
`hit.Source` dereferences `hit`. -/
def collectSources : List (Option Hit) → List (Option Employee) →
    Except Panic (List (Option Employee))
  | [], employees => .ok employees
  | none :: _, _ => .error .nilDereference
  | some hit :: rest, employees => collectSources rest (employees ++ [hit.Source])

/-- The method `SearchData`.  After the loop, `employees[0].Name` is printed
whatever the length of `employees`. -/
def SearchData (env : Env) (c : Client) (keyword : String) (w : World) :
    Result (List (Option Employee)) × World :=
  let query := searchQuery keyword
  match c.cfg.Addresses with
  | [] => (.panic (.indexOutOfRange 0 0), w)
  | base :: _ =>
    match NewRequest env "GET" (base ++ "/employee/_search") (.text query) with
    | .error _ => (.panic .nilDereference, w)
    | .ok req =>
      let req := req.SetBasicAuth c.cfg.Username c.cfg.Password
      let req := req.HeaderAdd "Content-type" "application/json"
      match Do env w req with
      | (.error err, w) =>
        (.err (Errorf "failed to make a http call to search data: " err), w)
      | (.ok response, w) =>
        match response.Body with
        | .error err => (.err (Errorf "failed read insert data response: " err), w)
        | .ok responseBody =>
          match env.unmarshal responseBody with
          | .error err => (.err (Errorf "failed read unmarshal data response: " err), w)
          | .ok searchHits =>
            match collectSources searchHits.Hits [] with
            | .error p => (.panic p, w)
            | .ok employees =>
              match employees with
              | [] => (.panic (.indexOutOfRange 0 0), w)
              | none :: _ => (.panic .nilDereference, w)
              | some first :: _ => (.ok employees, w.print ("Name is: " ++ first.Name))

/-- The method `UpdateData`. -/
def UpdateData (env : Env) (c : Client) (e : Option Employee) (w : World) :
    Result Unit × World :=
  let body := Json.obj [("doc", marshalEmployeePtr e)]
  match e with
  | none => (.panic .nilDereference, w)
  | some emp =>
    let id := Itoa emp.Id
    match c.cfg.Addresses with
    | [] => (.panic (.indexOutOfRange 0 0), w)
    | base :: _ =>
      match NewRequest env "POST" (base ++ "/employee/_update/" ++ id) (.marshalled body) with
      | .error _ => (.panic .nilDereference, w)
      | .ok req =>
        let req := req.SetBasicAuth c.cfg.Username c.cfg.Password
        let req := req.HeaderAdd "Content-type" "application/json"
        match Do env w req with
        | (.error err, w) =>
          (.err (Errorf "failed to make a http call to update data: " err), w)
        | (.ok response, w) =>
          match response.Body with
          | .error err => (.err (Errorf "failed read update data response: " err), w)
          | .ok responseBody =>
            (.ok (), w.log ["debug update data response: ", responseBody])

/-- The method `DeleteData`. -/
def DeleteData (env : Env) (c : Client) (id : Int) (w : World) : Result Unit × World :=
  match c.cfg.Addresses with
  | [] => (.panic (.indexOutOfRange 0 0), w)
  | base :: _ =>
    match NewRequest env "DELETE" (base ++ "/employee/_doc/" ++ Itoa id) .none with
    | .error _ => (.panic .nilDereference, w)
    | .ok req =>
      let req := req.SetBasicAuth c.cfg.Username c.cfg.Password
      let req := req.HeaderAdd "Content-type" "application/json"
      match Do env w req with
      | (.error err, w) =>
        (.err (Errorf "failed to make a http call to delete data: " err), w)
      | (.ok response, w) =>
        match response.Body with
        | .error err => (.err (Errorf "failed read delete data response: " err), w)
        | .ok responseBody =>
          (.ok (), w.log ["debug delete data response: ", responseBody])

/-! ## The HTTP Gateway -/

/-- An inbound request, as far as the handlers read it: the body and the form
values. -/
structure Inbound where
  Body : String
  Form : List (String × String)

/-- The method `FormValue`: the first value of the key, or the empty string. -/
def Inbound.FormValue (r : Inbound) (key : String) : String :=
  match r.Form.find? (fun kv => kv.1 = key) with
  | some kv => kv.2
  | none => ""

/-- What a handler wrote to its `http.ResponseWriter`. -/
structure Reply where
  Status : Nat
  Header : List (String × String)
  Body : Json

/-- How a handler ends: it wrote a reply, or it panicked before writing one. -/
inductive Served where
  | reply (r : Reply)
  | aborted (p : Panic)

/-- The function `writeResponseOK`. -/
def writeResponseOK (response : Json) : Reply :=
  ⟨200, [("Content-Type", "application/json")], response⟩

/-- The function `writeResponseInternalError`: the map with the one key `error`
holds the `error` value itself, which the encoder writes by its dynamic type. -/
def writeResponseInternalError (err : GoError) : Reply :=
  ⟨500, [("Content-Type", "application/json")], .obj [("error", err.toJson)]⟩

/-- What `json` writes for a `[]*Employee`: `null` for the nil slice. -/
def marshalEmployees : List (Option Employee) → Json
  | [] => .null
  | e :: es => .arr ((e :: es).map marshalEmployeePtr)

/-- The handler `InsertDataHandler`. -/
def InsertDataHandler (env : Env) (c : Client) (r : Inbound) (w : World) : Served × World :=
  let employee := env.decode r.Body
  match InsertData env c employee w with
  | (.err err, w) => (.reply (writeResponseInternalError err), w)
  | (.panic p, w) => (.aborted p, w)
  | (.ok _, w) => (.reply (writeResponseOK (marshalEmployeePtr employee)), w)

/-- The handler `UpdateDataHandler`. -/
def UpdateDataHandler (env : Env) (c : Client) (r : Inbound) (w : World) : Served × World :=
  let employee := env.decode r.Body
  match UpdateData env c employee w with
  | (.err err, w) => (.reply (writeResponseInternalError err), w)
  | (.panic p, w) => (.aborted p, w)
  | (.ok _, w) => (.reply (writeResponseOK (marshalEmployeePtr employee)), w)

/-- The handler `DeleteDataHandler`: the error of `strconv.Atoi` is dropped. -/
def DeleteDataHandler (env : Env) (c : Client) (r : Inbound) (w : World) : Served × World :=
  let id := (Atoi (r.FormValue "id")).1
  match DeleteData env c id w with
  | (.err err, w) => (.reply (writeResponseInternalError err), w)
  | (.panic p, w) => (.aborted p, w)
  | (.ok _, w) => (.reply (writeResponseOK (Employee.toJson ⟨id, "", "", .ofRat 0⟩)), w)

/-- The handler `SearchDataHandler`. -/
def SearchDataHandler (env : Env) (c : Client) (r : Inbound) (w : World) : Served × World :=
  let keyword := r.FormValue "keyword"
  match SearchData env c keyword w with
  | (.err err, w) => (.reply (writeResponseInternalError err), w)
  | (.panic p, w) => (.aborted p, w)
  | (.ok employees, w) => (.reply (writeResponseOK (marshalEmployees employees)), w)

/-- The handler `HealthCheckHandler`. -/
def HealthCheckHandler (env : Env) (c : Client) (_r : Inbound) (w : World) : Served × World :=
  match CheckHealth env c w with
  | (.err err, w) => (.reply (writeResponseInternalError err), w)
  | (.panic p, w) => (.aborted p, w)
  | (.ok _, w) => (.reply (writeResponseOK (.obj [("status", .str "OK")])), w)

/-! ## Sample environments -/

/-- The error of a transport that cannot reach the engine. -/
def connectionRefused : GoError :=
  .library "dial tcp 127.0.0.1:9200: connect: connection refused"
    (.obj [("Op", .str "dial"), ("Net", .str "tcp"), ("Source", .null),
           ("Addr", .obj [("IP", .str "127.0.0.1"), ("Port", .num "9200"), ("Zone", .str "")]),
           ("Err", .obj [("Syscall", .str "connect"), ("Err", .num "111")])])

/-- The error of a body that ends before its announced length. -/
def unexpectedEOF : GoError := .errorString "unexpected EOF"

/-- An environment in which every request is well-formed, the engine gives the
same answer to every request, and the decoders give the same results for every
text. -/
def constEnv (answer : Except GoError Response) (hits : Except GoError SearchHits)
    (decoded : Option Employee) : Env where
  newRequestErr := fun _ _ => none
  roundTrip := fun _ _ => answer
  unmarshal := fun _ => hits
  decode := fun _ => decoded

/-- A sample record. -/
def alice : Employee := ⟨7, "alice", "1 Main St", .ofRat 1200⟩

/-- Another sample record. -/
def bob : Employee := ⟨8, "bob", "2 Main St", .ofRat 900⟩

/-- A record with a negative id and the salary negative zero. -/
def zed : Employee := ⟨-3, "zed", "nowhere", Float64.negZero⟩

/-! ## Hits and their sources -/

/-- A hit that is not nil and carries a source. -/
def Hit.hasSource (h : Option Hit) : Prop := ∃ hit e, h = some hit ∧ hit.Source = some e

/-- The source of a hit, nil for a nil hit. -/
def hitSource (h : Option Hit) : Option Employee := h.bind Hit.Source

/-- An engine whose answer to a search is a hit list with no hit. -/
def noHitEnv : Env :=
  constEnv (.ok ⟨200, .ok "\x7b\"hits\":\x7b\"hits\":[]\x7d\x7d"⟩) (.ok ⟨[]⟩) none

/-- An engine that answers every request with 404 and a readable body; the
decoder gives the record `alice`. -/
def notFoundEnv : Env :=
  constEnv (.ok ⟨404, .ok "\x7b\"error\":\x7b\"type\":\"document_missing_exception\"\x7d,\"status\":404\x7d"⟩)
    (.ok ⟨[]⟩) (some alice)

/-- An engine that cannot be reached; the decoder gives the record `alice`. -/
def downEnv : Env := constEnv (.error connectionRefused) (.ok ⟨[]⟩) (some alice)

/-- An engine that answers every request with 200; the decoder leaves the
pointer nil, as it does for an empty body, for text that is not JSON and for
`null`. -/
def nilDecodeEnv : Env := constEnv (.ok ⟨200, .ok "ok"⟩) (.ok ⟨[]⟩) none

/-- An engine that answers every request with 200; the decoder gives a record
with no field set, as it does for the body of an empty object. -/
def zeroDecodeEnv : Env := constEnv (.ok ⟨200, .ok "ok"⟩) (.ok ⟨[]⟩) (some Employee.zero)

/-- An engine that answers every request with 200; the decoder gives a record
with a name and the id 0, as it does for a body whose `id` is a number that is
not an integer: the field keeps its zero value. -/
def fractionalIdEnv : Env :=
  constEnv (.ok ⟨200, .ok "ok"⟩) (.ok ⟨[]⟩) (some ⟨0, "carol", "", .ofRat 0⟩)

/-! ## The requests of insert, update and delete -/

/-- The request that an insert of the record `e` is to hand to the transport: a
PUT at the path of its id, with the four members of the record as body. -/
def insertRequest (c : Client) (base : String) (e : Employee) : Request :=
  { Method := "PUT", URL := base ++ "/employee/_doc/" ++ Itoa e.Id,
    Body := .marshalled (.obj [("id", .num (Itoa e.Id)), ("name", .str e.Name),
      ("address", .str e.Address), ("salary", .float e.Salary)]),
    BasicAuth := some (c.cfg.Username, c.cfg.Password),
    Header := [("Content-type", "application/json")] }

/-- The request that an update of the record `e` is to hand to the transport: a
POST at the update path of its id, with the record under the member `doc`. -/
def updateRequest (c : Client) (base : String) (e : Employee) : Request :=
  { Method := "POST", URL := base ++ "/employee/_update/" ++ Itoa e.Id,
    Body := .marshalled (.obj [("doc", .obj [("id", .num (Itoa e.Id)), ("name", .str e.Name),
      ("address", .str e.Address), ("salary", .float e.Salary)])]),
    BasicAuth := some (c.cfg.Username, c.cfg.Password),
    Header := [("Content-type", "application/json")] }

/-- The request that a delete of the id `id` is to hand to the transport: a
DELETE at the path of the id, with no body. -/
def deleteRequest (c : Client) (base : String) (id : Int) : Request :=
  { Method := "DELETE", URL := base ++ "/employee/_doc/" ++ Itoa id,
    Body := .none,
    BasicAuth := some (c.cfg.Username, c.cfg.Password),
    Header := [("Content-type", "application/json")] }

/-! ## Operations, steps and the wording of error messages -/

/-- The operations of the Engine Client. -/
inductive Op where
  | checkHealth | createIndex | insert | update | search | delete
  deriving DecidableEq

/-- The steps of an operation that can fail. -/
inductive Step where
  | construct | transport | read
  deriving DecidableEq

/-- All operations. -/
def Op.all : List Op := [.checkHealth, .createIndex, .insert, .update, .search, .delete]

/-- All steps. -/
def Step.all : List Step := [.construct, .transport, .read]

/-- A result without its value. -/
def Result.void {α : Type} : Result α → Result Unit
  | .ok _ => .ok ()
  | .err e => .err e
  | .panic p => .panic p

/-- How the operation `op` ends, run on the record `e` (its name is the keyword
of a search, its id the id of a delete). -/
def Op.run (op : Op) (env : Env) (c : Client) (e : Employee) (w : World) : Result Unit :=
  match op with
  | .checkHealth => (CheckHealth env c w).1
  | .createIndex => (CreateIndex env c w).1
  | .insert => (InsertData env c (some e) w).1
  | .update => (UpdateData env c (some e) w).1
  | .search => (SearchData env c e.Name w).1.void
  | .delete => (DeleteData env c e.Id w).1

/-- The environment fails at `step` with the error `e0`, the steps before it
succeeding. -/
def Env.failsAt (env : Env) (w : World) (e0 : GoError) : Step → Prop
  | .construct => ∀ method url, env.newRequestErr method url = some e0
  | .transport => (∀ method url, env.newRequestErr method url = none)
      ∧ ∀ req, env.roundTrip w.sent req = .error e0
  | .read => (∀ method url, env.newRequestErr method url = none)
      ∧ ∃ status, ∀ req, env.roundTrip w.sent req = .ok ⟨status, .error e0⟩

/-- Whether the second list starts with the first. -/
def startsWithChars : List Char → List Char → Bool
  | [], _ => true
  | _ :: _, [] => false
  | a :: as, b :: bs => a == b && startsWithChars as bs

/-- Whether `needle` occurs in the list as a block. -/
def containsChars (needle : List Char) : List Char → Bool
  | [] => needle.isEmpty
  | b :: bs => startsWithChars needle (b :: bs) || containsChars needle bs

/-- Whether the text `msg` contains the word `word`. -/
def mentions (msg word : String) : Bool := containsChars word.data msg.data

/-- The word by which a message names an operation. -/
def opWord : Op → String
  | .checkHealth => "health"
  | .createIndex => "index"
  | .insert => "insert"
  | .update => "update"
  | .search => "search"
  | .delete => "delete"

/-- The word by which a message names a step. -/
def stepWord : Step → String
  | .construct => "request"
  | .transport => "http call"
  | .read => "read"

/-- The text `pre` names the operation `op` and the step `step`, and no other
operation and no other step. -/
def namesOnly (pre : String) (op : Op) (step : Step) : Bool :=
  mentions pre (opWord op) && mentions pre (stepWord step)
    && Op.all.all (fun o => decide (o = op) || !mentions pre (opWord o))
    && Step.all.all (fun s => decide (s = step) || !mentions pre (stepWord s))

/-- The operation returns an error that wraps `e0` in a message naming the
operation and the step. -/
def WrapsNaming (op : Op) (step : Step) (env : Env) (c : Client) (e : Employee) (w : World)
    (e0 : GoError) : Prop :=
  ∃ pre, op.run env c e w = .err (.errorString (pre ++ e0.Error)) ∧ namesOnly pre op step = true

/-- The pairs of operation and step for which the source wraps the error under
the operation's and the step's own name. -/
def wrapsUnderOwnName : Op → Step → Bool
  | .checkHealth, _ => false
  | _, .construct => false
  | .search, .read => false
  | _, _ => true

/-- An environment that fails at the given step with `e0`. -/
def failingEnv (step : Step) (e0 : GoError) : Env where
  newRequestErr := fun _ _ => if step = .construct then some e0 else none
  roundTrip := fun _ _ => if step = .transport then .error e0 else .ok ⟨200, .error e0⟩
  unmarshal := fun _ => .ok ⟨[]⟩
  decode := fun _ => none

/-! ## The requests of seeding -/

/-- The insert requests for the `count` ids from `idStart` on, in ascending
order of id. -/
def seedRequests (c : Client) (base : String) (idStart : Int) (count : Nat) : List Request :=
  (List.range count).map (fun j : Nat => insertRequest c base (seedEmployee (idStart + (j : Int))))

/-- An engine that answers the first `count` requests with 200 and cannot be
reached afterwards. -/
def failsAfterEnv (count : Nat) : Env where
  newRequestErr := fun _ _ => none
  roundTrip := fun hist _ =>
    if hist.length < count then .ok ⟨200, .ok "ok"⟩ else .error connectionRefused
  unmarshal := fun _ => .ok ⟨[]⟩
  decode := fun _ => none

/-! ## A reader of JSON text

A reader of JSON text (RFC 8259), used to say what it means for the body of a
search to be a well-formed match query. -/

/-- JSON white space. -/
def isJsonSpace (ch : Char) : Bool := ch = ' ' || ch = '\n' || ch = '\t' || ch = '\r'

/-- The text after leading white space. -/
def skipSpace : List Char → List Char
  | [] => []
  | ch :: rest => if isJsonSpace ch then skipSpace rest else ch :: rest

/-- The value of a hexadecimal digit. -/
def hexValue (ch : Char) : Option Nat :=
  let n := ch.toNat
  if 48 ≤ n ∧ n ≤ 57 then some (n - 48)
  else if 97 ≤ n ∧ n ≤ 102 then some (n - 87)
  else if 65 ≤ n ∧ n ≤ 70 then some (n - 55)
  else none

/-- The code unit of the four hexadecimal digits of a `\u` escape. -/
def hexQuad (a b c d : Char) : Option Nat :=
  match hexValue a, hexValue b, hexValue c, hexValue d with
  | some x, some y, some z, some t => some (((x * 16 + y) * 16 + z) * 16 + t)
  | _, _, _, _ => none

/-- A JSON string, read from after its opening quote: the characters it denotes
(in `acc`, last first) and the text after its closing quote. A control
character, an unknown escape and a missing closing quote are errors. -/
def readString : List Char → List Char → Option (String × List Char)
  | [], _ => none
  | '"' :: rest, acc => some (String.mk acc.reverse, rest)
  | '\\' :: '"' :: rest, acc => readString rest ('"' :: acc)
  | '\\' :: '\\' :: rest, acc => readString rest ('\\' :: acc)
  | '\\' :: '/' :: rest, acc => readString rest ('/' :: acc)
  | '\\' :: 'b' :: rest, acc => readString rest (Char.ofNat 8 :: acc)
  | '\\' :: 'f' :: rest, acc => readString rest (Char.ofNat 12 :: acc)
  | '\\' :: 'n' :: rest, acc => readString rest ('\n' :: acc)
  | '\\' :: 'r' :: rest, acc => readString rest ('\r' :: acc)
  | '\\' :: 't' :: rest, acc => readString rest ('\t' :: acc)
  | '\\' :: 'u' :: a :: b :: c :: d :: rest, acc =>
    match hexQuad a b c d with
    | some v => readString rest (Char.ofNat v :: acc)
    | none => none
  | '\\' :: _, _ => none
  | ch :: rest, acc => if ch.toNat < 32 then none else readString rest (ch :: acc)

/-- Whether the character is a decimal digit. -/
def isDigit (ch : Char) : Bool := 48 ≤ ch.toNat && ch.toNat ≤ 57

/-- A JSON number at the head of the text: its literal and the text after it. -/
def readNumber (cs : List Char) : Option (String × List Char) :=
  let (sign, cs₁) := match cs with
    | '-' :: rest => (['-'], rest)
    | _ => ([], cs)
  let (whole, cs₂) := cs₁.span isDigit
  if whole = [] ∨ (whole.head? = some '0' ∧ 1 < whole.length) then none
  else
    let fraction : Option (List Char × List Char) := match cs₂ with
      | '.' :: rest =>
        let (digits, after) := rest.span isDigit
        if digits = [] then none else some ('.' :: digits, after)
      | _ => some ([], cs₂)
    match fraction with
    | none => none
    | some (frac, cs₃) =>
      let exponent : Option (List Char × List Char) := match cs₃ with
        | e :: rest =>
          if e = 'e' ∨ e = 'E' then
            let (esign, rest₁) := match rest with
              | '+' :: r => (['+'], r)
              | '-' :: r => (['-'], r)
              | _ => ([], rest)
            let (digits, after) := rest₁.span isDigit
            if digits = [] then none else some (e :: esign ++ digits, after)
          else some ([], cs₃)
        | [] => some ([], cs₃)
      match exponent with
      | none => none
      | some (ex, cs₄) => some (String.mk (sign ++ whole ++ frac ++ ex), cs₄)

mutual
/-- A JSON value at the head of the text, after white space. `fuel` bounds the
depth of the reading. -/
def readValue : Nat → List Char → Option (Json × List Char)
  | 0, _ => none
  | fuel + 1, cs =>
    match skipSpace cs with
    | '"' :: rest =>
      match readString rest [] with
      | some (s, after) => some (.str s, after)
      | none => none
    | '{' :: rest =>
      match skipSpace rest with
      | '}' :: after => some (.obj [], after)
      | inner =>
        match readMembers fuel inner with
        | some (members, after) => some (.obj members, after)
        | none => none
    | '[' :: rest =>
      match skipSpace rest with
      | ']' :: after => some (.arr [], after)
      | inner =>
        match readElements fuel inner with
        | some (items, after) => some (.arr items, after)
        | none => none
    | 't' :: 'r' :: 'u' :: 'e' :: after => some (.bool true, after)
    | 'f' :: 'a' :: 'l' :: 's' :: 'e' :: after => some (.bool false, after)
    | 'n' :: 'u' :: 'l' :: 'l' :: after => some (.null, after)
    | other =>
      match readNumber other with
      | some (lit, after) => some (.num lit, after)
      | none => none
/-- The elements of an array up to its closing bracket, at least one. -/
def readElements : Nat → List Char → Option (List Json × List Char)
  | 0, _ => none
  | fuel + 1, cs =>
    match readValue fuel cs with
    | none => none
    | some (v, rest) =>
      match skipSpace rest with
      | ',' :: more =>
        match readElements fuel more with
        | some (vs, after) => some (v :: vs, after)
        | none => none
      | ']' :: after => some ([v], after)
      | _ => none
/-- The members of an object up to its closing brace, at least one. -/
def readMembers : Nat → List Char → Option (List (String × Json) × List Char)
  | 0, _ => none
  | fuel + 1, cs =>
    match skipSpace cs with
    | '"' :: rest =>
      match readString rest [] with
      | none => none
      | some (key, rest₁) =>
        match skipSpace rest₁ with
        | ':' :: rest₂ =>
          match readValue fuel rest₂ with
          | none => none
          | some (v, rest₃) =>
            match skipSpace rest₃ with
            | ',' :: more =>
              match readMembers fuel more with
              | some (ms, after) => some ((key, v) :: ms, after)
              | none => none
            | '}' :: after => some ([(key, v)], after)
            | _ => none
        | _ => none
    | _ => none
end

/-- The text `s` is a well-formed JSON document that denotes `v`: some depth of
reading gives `v` with nothing but white space after it. -/
def DenotesJson (s : String) (v : Json) : Prop :=
  ∃ fuel rest, readValue fuel s.data = some (v, rest) ∧ skipSpace rest = []

/-- The JSON document of a text, read to a depth that no text of its length
exceeds. -/
def parseJson (s : String) : Option Json :=
  match readValue (2 * s.length + 2) s.data with
  | some (v, rest) => if skipSpace rest = [] then some v else none
  | none => none

/-- The match query on the field `name` for a keyword, and nothing else. -/
def matchQuery (keyword : String) : Json :=
  .obj [("query", .obj [("match", .obj [("name", .str keyword)])])]

/-! # Theorems -/

/-! ## Lemmas on the search loop -/

theorem collectSources_of_some (hs : List (Option Hit)) (acc : List (Option Employee))
    (h : ∀ x ∈ hs, x ≠ none) :
    collectSources hs acc = .ok (acc ++ hs.map hitSource) := by
  induction hs generalizing acc with
  | nil => simp [collectSources]
  | cons x xs ih =>
    cases x with
    | none => exact absurd rfl (h none (by simp))
    | some hit =>
      have hxs : ∀ y ∈ xs, y ≠ none := fun y hy => h y (by simp [hy])
      simp [collectSources, ih _ hxs, hitSource]

/-! ## C1: a search that matches nothing -/

/-- C1, at an engine answer with an empty hit list: `SearchData` does not return
the empty sequence. It indexes the empty result at 0 and panics, and the search
handler writes no reply. -/
theorem SearchData_empty_hits_panics :
    (SearchData noHitEnv (NewClient "") "nobody" World.init).1
        = Result.panic (Panic.indexOutOfRange 0 0)
      ∧ (SearchDataHandler noHitEnv (NewClient "") ⟨"", [("keyword", "nobody")]⟩ World.init).1
        = Served.aborted (Panic.indexOutOfRange 0 0) := by
  constructor <;> rfl

/-! ## C5: the hits of a search, in order -/

/-- C5: when the engine's answer decodes to a hit list of at least one hit, each
carrying a source, `SearchData` returns without error exactly the sources of the
hits: as many records as hits, the i-th record being the source of the i-th
hit. -/
theorem SearchData_returns_sources (env : Env) (c : Client) (base : String)
    (rest : List String) (keyword : String) (w : World) (resp : Response) (body : String)
    (sh : SearchHits)
    (hc : c.cfg.Addresses = base :: rest)
    (hreq : env.newRequestErr "GET" (base ++ "/employee/_search") = none)
    (hdo : ∀ req, env.roundTrip w.sent req = .ok resp)
    (hbody : resp.Body = .ok body)
    (hun : env.unmarshal body = .ok sh)
    (hne : 1 ≤ sh.Hits.length)
    (hsrc : ∀ h ∈ sh.Hits, Hit.hasSource h) :
    ∃ rs, (SearchData env c keyword w).1 = Result.ok rs
      ∧ rs.length = sh.Hits.length
      ∧ ∀ i (hi : i < sh.Hits.length), rs[i]? = some (hitSource (sh.Hits.get ⟨i, hi⟩))
          ∧ ∃ e, rs[i]? = some (some e) := by
  have hsome : ∀ x ∈ sh.Hits, x ≠ none := by
    intro x hx hnone
    obtain ⟨hit, e, hx', _⟩ := hsrc x hx
    rw [hnone] at hx'
    cases hx'
  refine ⟨sh.Hits.map hitSource, ?_, by simp, ?_⟩
  · cases hH : sh.Hits with
    | nil => rw [hH] at hne; simp at hne
    | cons x xs =>
      obtain ⟨hit, e, hx, he⟩ := hsrc x (by rw [hH]; simp)
      have hcol := collectSources_of_some sh.Hits [] hsome
      rw [hH] at hcol
      subst hx
      have hfirst : hitSource (some hit) = some e := by simp [hitSource, he]
      simp only [List.nil_append, List.map_cons, hfirst] at hcol
      simp [SearchData, hc, NewRequest, hreq, Do, hdo, hbody, hun, hH, hcol, hfirst]
  · intro i hi
    have hmem : sh.Hits.get ⟨i, hi⟩ ∈ sh.Hits := List.get_mem _ _ _
    obtain ⟨hit, e, hx, he⟩ := hsrc _ hmem
    refine ⟨by simp [List.getElem?_map, List.getElem?_eq_getElem hi], e, ?_⟩
    simp [List.getElem?_map, List.getElem?_eq_getElem hi, hitSource]
    simp at hx
    rw [hx]
    simp [he]

/-- C5 at an engine answer with two hits. -/
theorem SearchData_returns_sources_witness :
    ∃ rs, (SearchData (constEnv (.ok ⟨200, .ok "hits"⟩)
              (.ok ⟨[some ⟨some alice⟩, some ⟨some bob⟩]⟩) none)
            (NewClient "") "a" World.init).1 = Result.ok rs
      ∧ rs.length = [some (Hit.mk (some alice)), some ⟨some bob⟩].length
      ∧ ∀ i (hi : i < [some (Hit.mk (some alice)), some ⟨some bob⟩].length),
          rs[i]? = some (hitSource ([some (Hit.mk (some alice)), some ⟨some bob⟩].get ⟨i, hi⟩))
          ∧ ∃ e, rs[i]? = some (some e) :=
  SearchData_returns_sources
    (constEnv (.ok ⟨200, .ok "hits"⟩) (.ok ⟨[some ⟨some alice⟩, some ⟨some bob⟩]⟩) none)
    (NewClient "") "http://localhost:9200" [] "a" World.init ⟨200, .ok "hits"⟩ "hits"
    ⟨[some ⟨some alice⟩, some ⟨some bob⟩]⟩ rfl rfl (fun _ => rfl) rfl rfl (by decide)
    (by
      intro h hh
      simp at hh
      rcases hh with rfl | rfl
      · exact ⟨⟨some alice⟩, alice, rfl, rfl⟩
      · exact ⟨⟨some bob⟩, bob, rfl, rfl⟩)

/-! ## C2: an update of a document the engine does not hold -/

/-- C2 as stated fails: the engine answers the update with 404, the answer is
transported and read, and `UpdateData` returns nil; the update handler answers
200. -/
theorem UpdateData_not_found_returns_nil :
    (UpdateData notFoundEnv (NewClient "") (some alice) World.init).1 = Result.ok ()
      ∧ (UpdateDataHandler notFoundEnv (NewClient "") ⟨"alice", []⟩ World.init).1
        = Served.reply ⟨200, [("Content-Type", "application/json")], alice.toJson⟩ := by
  constructor <;> rfl

/-- C2, amended: when the engine's answer to the update request is transported
and read, `UpdateData` returns nil whatever the status code of the answer, a
not-found status included, and logs the body; the update handler then answers
200 with the record it decoded. -/
theorem UpdateData_ignores_status (env : Env) (c : Client) (base : String)
    (rest : List String) (e : Employee) (w : World) (resp : Response) (body : String)
    (hc : c.cfg.Addresses = base :: rest)
    (hreq : env.newRequestErr "POST" (base ++ "/employee/_update/" ++ Itoa e.Id) = none)
    (hdo : ∀ req, env.roundTrip w.sent req = .ok resp)
    (hbody : resp.Body = .ok body) :
    (UpdateData env c (some e) w).1 = Result.ok ()
      ∧ (UpdateData env c (some e) w).2.logged
          = w.logged ++ [["debug update data response: ", body]]
      ∧ ∀ r : Inbound, env.decode r.Body = some e →
          (UpdateDataHandler env c r w).1
            = Served.reply ⟨200, [("Content-Type", "application/json")], e.toJson⟩ := by
  have h1 : UpdateData env c (some e) w
      = (Result.ok (), ({ w with sent := w.sent ++
          [((Request.mk "POST" (base ++ "/employee/_update/" ++ Itoa e.Id)
              (.marshalled (.obj [("doc", e.toJson)])) none []).SetBasicAuth
              c.cfg.Username c.cfg.Password).HeaderAdd "Content-type" "application/json"] } :
          World).log ["debug update data response: ", body]) := by
    simp [UpdateData, hc, NewRequest, hreq, Do, hdo, hbody, marshalEmployeePtr]
  refine ⟨by rw [h1], by rw [h1]; rfl, ?_⟩
  intro r hr
  simp [UpdateDataHandler, hr, h1, writeResponseOK, marshalEmployeePtr]

/-- C2, amended, at an engine that answers 404. -/
theorem UpdateData_ignores_status_witness :
    (UpdateData notFoundEnv (NewClient "") (some alice) World.init).1 = Result.ok ()
      ∧ (UpdateData notFoundEnv (NewClient "") (some alice) World.init).2.logged
          = World.init.logged ++ [["debug update data response: ",
              "\x7b\"error\":\x7b\"type\":\"document_missing_exception\"\x7d,\"status\":404\x7d"]]
      ∧ ∀ r : Inbound, notFoundEnv.decode r.Body = some alice →
          (UpdateDataHandler notFoundEnv (NewClient "") r World.init).1
            = Served.reply ⟨200, [("Content-Type", "application/json")], alice.toJson⟩ :=
  UpdateData_ignores_status notFoundEnv (NewClient "") "http://localhost:9200" [] alice
    World.init ⟨404, .ok "\x7b\"error\":\x7b\"type\":\"document_missing_exception\"\x7d,\"status\":404\x7d"⟩
    "\x7b\"error\":\x7b\"type\":\"document_missing_exception\"\x7d,\"status\":404\x7d"
    rfl rfl (fun _ => rfl) rfl

/-! ## C3: what the handlers write for an error -/

/-- C3, at an insert while the engine is down: `InsertData` returns an error
with a description, and the handler answers 500 with a body whose `error`
member is the empty object, not that description. The same body is written for
every error made by `fmt.Errorf`, whatever its text. -/
theorem InsertDataHandler_error_body_is_empty_object :
    (InsertData downEnv (NewClient "") (some alice) World.init).1
        = Result.err (GoError.errorString
            "failed to make a http call to insert data: dial tcp 127.0.0.1:9200: connect: connection refused")
      ∧ (InsertDataHandler downEnv (NewClient "") ⟨"alice", []⟩ World.init).1
        = Served.reply ⟨500, [("Content-Type", "application/json")],
            Json.obj [("error", Json.obj [])]⟩
      ∧ Json.obj [("error", Json.obj [])]
        ≠ Json.obj [("error", Json.str
            "failed to make a http call to insert data: dial tcp 127.0.0.1:9200: connect: connection refused")]
      ∧ (∀ (pre : String) (err : GoError),
          writeResponseInternalError (Errorf pre err)
            = ⟨500, [("Content-Type", "application/json")], Json.obj [("error", Json.obj [])]⟩) := by
  refine ⟨?_, rfl, by simp, fun _ _ => rfl⟩
  exact congrArg (fun m => Result.err (GoError.errorString m)) (by decide)

/-! ## C4: bodies that leave the record pointer nil -/

/-- C4, at an empty body: the pointer `employee` stays nil, `InsertData` and
`UpdateData` dereference it, and both handlers panic with no request sent to
the engine and no reply written. At a body that gives a record with no field
set, the handlers forward the zero record and answer 200. -/
theorem handlers_nil_record_panic :
    InsertDataHandler nilDecodeEnv (NewClient "") ⟨"", []⟩ World.init
        = (Served.aborted Panic.nilDereference, World.init)
      ∧ UpdateDataHandler nilDecodeEnv (NewClient "") ⟨"", []⟩ World.init
        = (Served.aborted Panic.nilDereference, World.init)
      ∧ (InsertDataHandler zeroDecodeEnv (NewClient "") ⟨"\x7b\x7d", []⟩ World.init).1
        = Served.reply ⟨200, [("Content-Type", "application/json")], Employee.zero.toJson⟩
      ∧ (InsertDataHandler zeroDecodeEnv (NewClient "") ⟨"\x7b\x7d", []⟩ World.init).2.sent
        = [insertRequest (NewClient "") "http://localhost:9200" Employee.zero]
      ∧ (UpdateDataHandler zeroDecodeEnv (NewClient "") ⟨"\x7b\x7d", []⟩ World.init).1
        = Served.reply ⟨200, [("Content-Type", "application/json")], Employee.zero.toJson⟩
      ∧ (UpdateDataHandler zeroDecodeEnv (NewClient "") ⟨"\x7b\x7d", []⟩ World.init).2.sent
        = [updateRequest (NewClient "") "http://localhost:9200" Employee.zero] := by
  refine ⟨rfl, rfl, rfl, rfl, rfl, rfl⟩

/-! ## Decimal rendering and its inverse -/

theorem digitValue_digitChar (d : Nat) : digitValue (digitChar d) = some (d % 10) := by
  have h : d % 10 < 10 := Nat.mod_lt _ (by decide)
  unfold digitChar
  generalize d % 10 = k at h ⊢
  interval_cases k <;> rfl

theorem digitChar_ne_sign (d : Nat) : digitChar d ≠ '-' ∧ digitChar d ≠ '+' := by
  have h : d % 10 < 10 := Nat.mod_lt _ (by decide)
  unfold digitChar
  generalize d % 10 = k at h ⊢
  interval_cases k <;> decide

theorem parseDigits_append (l₁ l₂ : List Char) (m : Nat) :
    parseDigits (l₁ ++ l₂) m = (parseDigits l₁ m).bind (parseDigits l₂) := by
  induction l₁ generalizing m with
  | nil => simp [parseDigits]
  | cons ch rest ih =>
    simp only [List.cons_append, parseDigits]
    cases digitValue ch with
    | none => simp
    | some d => simpa using ih (m * 10 + d)

/-- The digits written by `natDigits` are decimal digits, at least one, and
they read back as the number. -/
theorem natDigits_spec (fuel : Nat) : ∀ (n : Nat) (acc : List Char), n < 10 ^ (fuel + 1) →
    ∃ d rest, natDigits (fuel + 1) n acc = (digitChar d :: rest) ++ acc
      ∧ ∀ m, parseDigits (digitChar d :: rest) m = some (m * 10 ^ (rest.length + 1) + n) := by
  induction fuel with
  | zero =>
    intro n acc hn
    have hn10 : n < 10 := by simpa using hn
    refine ⟨n, [], by simp [natDigits, hn10], ?_⟩
    intro m
    simp [parseDigits, digitValue_digitChar, Nat.mod_eq_of_lt hn10]
  | succ f ih =>
    intro n acc hn
    by_cases hn10 : n < 10
    · refine ⟨n, [], by simp [natDigits, hn10], ?_⟩
      intro m
      simp [parseDigits, digitValue_digitChar, Nat.mod_eq_of_lt hn10]
    · have hdiv : n / 10 < 10 ^ (f + 1) := by
        rw [Nat.div_lt_iff_lt_mul (by decide)]
        rw [pow_succ] at hn
        exact hn
      obtain ⟨d, rest, hds, hval⟩ := ih (n / 10) (digitChar (n % 10) :: acc) hdiv
      refine ⟨d, rest ++ [digitChar (n % 10)], ?_, ?_⟩
      · rw [natDigits]
        simp only [hn10, if_false]
        rw [hds]
        simp
      · intro m
        have happ := parseDigits_append (digitChar d :: rest) [digitChar (n % 10)] m
        simp only [List.cons_append] at happ
        rw [happ, hval m]
        simp only [Option.some_bind, parseDigits, digitValue_digitChar, List.length_append,
          List.length_singleton]
        congr 1
        have hmod : n % 10 % 10 = n % 10 := Nat.mod_mod _ _
        rw [hmod]
        have hpow : 10 ^ (rest.length + 1 + 1) = 10 ^ (rest.length + 1) * 10 := pow_succ _ _
        rw [hpow, ← Nat.mul_assoc]
        generalize m * 10 ^ (rest.length + 1) = x
        omega

theorem lt_ten_pow_succ (n : Nat) : n < 10 ^ (n + 1) :=
  lt_trans (Nat.lt_pow_self (by decide) n) (Nat.pow_lt_pow_right (by decide) (Nat.lt_succ_self n))

/-- The decimal rendering of a natural number: its characters start with a
digit and read back as the number. -/
theorem natToDecimal_spec (n : Nat) :
    ∃ d rest, (natToDecimal n).data = digitChar d :: rest
      ∧ parseDigits (digitChar d :: rest) 0 = some n := by
  obtain ⟨d, rest, hds, hval⟩ := natDigits_spec n n [] (lt_ten_pow_succ n)
  refine ⟨d, rest, ?_, ?_⟩
  · simp [natToDecimal, hds]
  · simpa using hval 0

theorem parseDigits_le (l : List Char) : ∀ (m v : Nat), parseDigits l m = some v → m ≤ v := by
  induction l with
  | nil =>
    intro m v h
    simp only [parseDigits, Option.some.injEq] at h
    omega
  | cons ch rest ih =>
    intro m v h
    simp only [parseDigits] at h
    cases hd : digitValue ch with
    | none => simp [hd] at h
    | some d =>
      simp only [hd] at h
      have := ih _ _ h
      omega

/-- On digits whose value fits 64 bits, the loop of `ParseUint` gives that
value. -/
theorem parseUintLoop_of_parseDigits (l : List Char) : ∀ (m v : Nat),
    parseDigits l m = some v → v ≤ maxUint64 → parseUintLoop l m = .value v := by
  induction l with
  | nil =>
    intro m v h _
    simp only [parseDigits, Option.some.injEq] at h
    simp [parseUintLoop, h]
  | cons ch rest ih =>
    intro m v h hv
    simp only [parseDigits] at h
    cases hd : digitValue ch with
    | none => simp [hd] at h
    | some d =>
      simp only [hd] at h
      have hle := parseDigits_le _ _ _ h
      have h1 : ¬ (maxUint64 / 10 + 1 ≤ m) := by
        unfold maxUint64 at hv ⊢
        omega
      have h2 : ¬ (maxUint64 < m * 10 + d) := by omega
      simp only [parseUintLoop, hd, h1, h2, if_false]
      exact ih _ _ h hv

/-- `Atoi` reads back what `Itoa` writes, for every 64-bit integer. -/
theorem Atoi_Itoa (k : Int) (hlo : minInt64 ≤ k) (hhi : k ≤ maxInt64) :
    Atoi (Itoa k) = (k, false) := by
  unfold minInt64 at hlo
  unfold maxInt64 at hhi
  cases k with
  | ofNat n =>
    obtain ⟨d, rest, hdata, hval⟩ := natToDecimal_spec n
    obtain ⟨h1, h2⟩ := digitChar_ne_sign d
    have hn : (n : Int) ≤ 2 ^ 63 - 1 := by simpa using hhi
    have hloop := parseUintLoop_of_parseDigits _ 0 n hval (by unfold maxUint64; omega)
    have hlt : ¬ ((2 : Int) ^ 63 ≤ (n : Int)) := by omega
    simp only [Itoa, Atoi, hdata, h1, h2, or_self, if_false, hloop, hlt]
    simp
  | negSucc n =>
    obtain ⟨d, rest, hdata, hval⟩ := natToDecimal_spec (n + 1)
    have hdata' : ("-" ++ natToDecimal (n + 1)).data = '-' :: digitChar d :: rest := by
      rw [← hdata]; rfl
    have hle : ((n + 1 : Nat) : Int) ≤ 2 ^ 63 := by
      have := Int.negSucc_eq n
      omega
    have hloop := parseUintLoop_of_parseDigits _ 0 (n + 1) hval (by unfold maxUint64; omega)
    have hlt : ¬ ((2 : Int) ^ 63 < ((n + 1 : Nat) : Int)) := by omega
    simp only [Itoa, Atoi, hdata', or_true, if_true, hloop, hlt, if_false]
    simp [Int.negSucc_eq]

/-! ## The requests of insert, update and delete -/

theorem InsertData_sent (env : Env) (c : Client) (base : String) (rest : List String)
    (e : Employee) (w : World) (hc : c.cfg.Addresses = base :: rest)
    (hreq : env.newRequestErr "PUT" (base ++ "/employee/_doc/" ++ Itoa e.Id) = none) :
    (InsertData env c (some e) w).2.sent = w.sent ++ [insertRequest c base e] := by
  simp only [InsertData, hc, NewRequest, hreq, Do, marshalEmployeePtr]
  cases env.roundTrip w.sent _ with
  | error err => rfl
  | ok resp =>
    cases hb : resp.Body with
    | error err => simp only [hb]; rfl
    | ok body => simp only [hb]; rfl

theorem UpdateData_sent (env : Env) (c : Client) (base : String) (rest : List String)
    (e : Employee) (w : World) (hc : c.cfg.Addresses = base :: rest)
    (hreq : env.newRequestErr "POST" (base ++ "/employee/_update/" ++ Itoa e.Id) = none) :
    (UpdateData env c (some e) w).2.sent = w.sent ++ [updateRequest c base e] := by
  simp only [UpdateData, hc, NewRequest, hreq, Do, marshalEmployeePtr]
  cases env.roundTrip w.sent _ with
  | error err => rfl
  | ok resp =>
    cases hb : resp.Body with
    | error err => simp only [hb]; rfl
    | ok body => simp only [hb]; rfl

theorem DeleteData_sent (env : Env) (c : Client) (base : String) (rest : List String)
    (id : Int) (w : World) (hc : c.cfg.Addresses = base :: rest)
    (hreq : env.newRequestErr "DELETE" (base ++ "/employee/_doc/" ++ Itoa id) = none) :
    (DeleteData env c id w).2.sent = w.sent ++ [deleteRequest c base id] := by
  simp only [DeleteData, hc, NewRequest, hreq, Do]
  cases env.roundTrip w.sent _ with
  | error err => rfl
  | ok resp =>
    cases hb : resp.Body with
    | error err => simp only [hb]; rfl
    | ok body => simp only [hb]; rfl

/-! ## C7: method, path and body of the three writes -/

/-- C7: for every record `r` and every integer `id`, once `http.NewRequest`
accepts the method and the URL, what goes to the transport is: for
`InsertData(r)` one PUT to base + "/employee/_doc/" + decimal(r.Id) whose body
is the JSON object with the members `id`, `name`, `address` and `salary` of `r`;
for `UpdateData(r)` one POST to base + "/employee/_update/" + decimal(r.Id)
whose body is the JSON object with the one member `doc`, that same object of
`r`; for `DeleteData(id)` one DELETE to base + "/employee/_doc/" + decimal(id)
with no body.  `decimal` is `strconv.Itoa`, which `strconv.Atoi` reads back as
the same integer for every 64-bit integer. -/
theorem write_requests (env : Env) (c : Client) (base : String) (rest : List String)
    (r : Employee) (id : Int) (w : World)
    (hc : c.cfg.Addresses = base :: rest)
    (hnew : ∀ method url, env.newRequestErr method url = none) :
    (InsertData env c (some r) w).2.sent = w.sent ++
        [{ Method := "PUT", URL := base ++ "/employee/_doc/" ++ Itoa r.Id,
           Body := Body.marshalled (Json.obj [("id", Json.num (Itoa r.Id)),
             ("name", Json.str r.Name), ("address", Json.str r.Address),
             ("salary", Json.float r.Salary)]),
           BasicAuth := some (c.cfg.Username, c.cfg.Password),
           Header := [("Content-type", "application/json")] }]
      ∧ (UpdateData env c (some r) w).2.sent = w.sent ++
        [{ Method := "POST", URL := base ++ "/employee/_update/" ++ Itoa r.Id,
           Body := Body.marshalled (Json.obj [("doc", Json.obj [("id", Json.num (Itoa r.Id)),
             ("name", Json.str r.Name), ("address", Json.str r.Address),
             ("salary", Json.float r.Salary)])]),
           BasicAuth := some (c.cfg.Username, c.cfg.Password),
           Header := [("Content-type", "application/json")] }]
      ∧ (DeleteData env c id w).2.sent = w.sent ++
        [{ Method := "DELETE", URL := base ++ "/employee/_doc/" ++ Itoa id,
           Body := Body.none,
           BasicAuth := some (c.cfg.Username, c.cfg.Password),
           Header := [("Content-type", "application/json")] }]
      ∧ (∀ k : Int, minInt64 ≤ k → k ≤ maxInt64 → Atoi (Itoa k) = (k, false)) :=
  ⟨InsertData_sent env c base rest r w hc (hnew _ _),
   UpdateData_sent env c base rest r w hc (hnew _ _),
   DeleteData_sent env c base rest id w hc (hnew _ _),
   fun k hlo hhi => Atoi_Itoa k hlo hhi⟩

/-- C7 at a record with the id -3 and the salary negative zero, and at the
id 0. -/
theorem write_requests_witness :
    ((InsertData nilDecodeEnv (NewClient "") (some zed) World.init).2.sent
        = World.init.sent ++
        [{ Method := "PUT", URL := "http://localhost:9200" ++ "/employee/_doc/" ++ Itoa zed.Id,
           Body := Body.marshalled (Json.obj [("id", Json.num (Itoa zed.Id)),
             ("name", Json.str zed.Name), ("address", Json.str zed.Address),
             ("salary", Json.float zed.Salary)]),
           BasicAuth := some ((NewClient "").cfg.Username, (NewClient "").cfg.Password),
           Header := [("Content-type", "application/json")] }]
      ∧ (UpdateData nilDecodeEnv (NewClient "") (some zed) World.init).2.sent
        = World.init.sent ++
        [{ Method := "POST", URL := "http://localhost:9200" ++ "/employee/_update/" ++ Itoa zed.Id,
           Body := Body.marshalled (Json.obj [("doc", Json.obj [("id", Json.num (Itoa zed.Id)),
             ("name", Json.str zed.Name), ("address", Json.str zed.Address),
             ("salary", Json.float zed.Salary)])]),
           BasicAuth := some ((NewClient "").cfg.Username, (NewClient "").cfg.Password),
           Header := [("Content-type", "application/json")] }]
      ∧ (DeleteData nilDecodeEnv (NewClient "") 0 World.init).2.sent
        = World.init.sent ++
        [{ Method := "DELETE", URL := "http://localhost:9200" ++ "/employee/_doc/" ++ Itoa 0,
           Body := Body.none,
           BasicAuth := some ((NewClient "").cfg.Username, (NewClient "").cfg.Password),
           Header := [("Content-type", "application/json")] }]
      ∧ (∀ k : Int, minInt64 ≤ k → k ≤ maxInt64 → Atoi (Itoa k) = (k, false)))
    ∧ "http://localhost:9200" ++ "/employee/_doc/" ++ Itoa zed.Id
        = "http://localhost:9200/employee/_doc/-3"
    ∧ "http://localhost:9200" ++ "/employee/_update/" ++ Itoa zed.Id
        = "http://localhost:9200/employee/_update/-3"
    ∧ "http://localhost:9200" ++ "/employee/_doc/" ++ Itoa 0
        = "http://localhost:9200/employee/_doc/0"
    ∧ Json.num (Itoa zed.Id) = Json.num "-3" :=
  ⟨write_requests nilDecodeEnv (NewClient "") "http://localhost:9200" [] zed 0
      World.init rfl (fun _ _ => rfl),
   by decide, by decide, by decide, congrArg Json.num (by decide)⟩

/-! ## C8: the id of the outgoing request -/

theorem InsertDataHandler_world (env : Env) (c : Client) (r : Inbound) (w : World) :
    (InsertDataHandler env c r w).2 = (InsertData env c (env.decode r.Body) w).2 := by
  show (match InsertData env c (env.decode r.Body) w with
    | (.err err, w) => (_, w) | (.panic p, w) => (_, w) | (.ok _, w) => (_, w) : Served × World).2 = _
  generalize InsertData env c (env.decode r.Body) w = x
  rcases x with ⟨res, w'⟩
  cases res <;> rfl

theorem UpdateDataHandler_world (env : Env) (c : Client) (r : Inbound) (w : World) :
    (UpdateDataHandler env c r w).2 = (UpdateData env c (env.decode r.Body) w).2 := by
  show (match UpdateData env c (env.decode r.Body) w with
    | (.err err, w) => (_, w) | (.panic p, w) => (_, w) | (.ok _, w) => (_, w) : Served × World).2 = _
  generalize UpdateData env c (env.decode r.Body) w = x
  rcases x with ⟨res, w'⟩
  cases res <;> rfl

theorem DeleteDataHandler_world (env : Env) (c : Client) (r : Inbound) (w : World) :
    (DeleteDataHandler env c r w).2 = (DeleteData env c (Atoi (r.FormValue "id")).1 w).2 := by
  show (match DeleteData env c (Atoi (r.FormValue "id")).1 w with
    | (.err err, w) => (_, w) | (.panic p, w) => (_, w) | (.ok _, w) => (_, w) : Served × World).2 = _
  generalize DeleteData env c (Atoi (r.FormValue "id")).1 w = x
  rcases x with ⟨res, w'⟩
  cases res <;> rfl

/-- C8 as stated fails. The caller asks to delete the id `abc`, and the request
that goes to the engine deletes the document 0. The caller inserts a record
whose `id` is the number 1.5, the decoder leaves the field at zero, and the
request that goes to the engine writes the document 0. In both cases the id is
one the caller did not supply. -/
theorem DeleteDataHandler_substitutes_zero :
    (DeleteDataHandler nilDecodeEnv (NewClient "") ⟨"", [("id", "abc")]⟩ World.init).2.sent.map
        Request.URL = ["http://localhost:9200/employee/_doc/0"]
      ∧ Itoa 0 ≠ "abc"
      ∧ (InsertDataHandler fractionalIdEnv (NewClient "")
          ⟨"\x7b\"id\":1.5,\"name\":\"carol\"\x7d", []⟩ World.init).2.sent.map
        Request.URL = ["http://localhost:9200/employee/_doc/0"]
      ∧ (UpdateDataHandler fractionalIdEnv (NewClient "")
          ⟨"\x7b\"id\":1.5,\"name\":\"carol\"\x7d", []⟩ World.init).2.sent.map
        Request.URL = ["http://localhost:9200/employee/_update/0"] := by
  refine ⟨by decide, by decide, by decide, by decide⟩

/-- C8, amended: the id of the outgoing request is the integer the handler
decoded from the inbound request. For every delete request it is
`strconv.Atoi` of the query parameter `id` with the error dropped, which is the
supplied integer whenever the parameter is the decimal rendering of a 64-bit
integer. For every insert and update request whose body gives a record it is
the `id` field of that record, and when the body gives none, no request goes
out. No handler makes up an id from anything else. -/
theorem handlers_forward_decoded_id (env : Env) (c : Client) (base : String)
    (rest : List String) (w : World)
    (hc : c.cfg.Addresses = base :: rest)
    (hnew : ∀ method url, env.newRequestErr method url = none) :
    (∀ rd : Inbound, (DeleteDataHandler env c rd w).2.sent
        = w.sent ++ [deleteRequest c base (Atoi (rd.FormValue "id")).1])
      ∧ (∀ (rd : Inbound) (k : Int), minInt64 ≤ k → k ≤ maxInt64 →
          rd.FormValue "id" = Itoa k →
          (DeleteDataHandler env c rd w).2.sent = w.sent ++ [deleteRequest c base k])
      ∧ (∀ (r : Inbound) (e : Employee), env.decode r.Body = some e →
          (InsertDataHandler env c r w).2.sent = w.sent ++ [insertRequest c base e]
            ∧ (UpdateDataHandler env c r w).2.sent = w.sent ++ [updateRequest c base e])
      ∧ (∀ r : Inbound, env.decode r.Body = none →
          (InsertDataHandler env c r w).2.sent = w.sent
            ∧ (UpdateDataHandler env c r w).2.sent = w.sent)
      ∧ (∀ e : Employee,
          (insertRequest c base e).URL = base ++ "/employee/_doc/" ++ Itoa e.Id
            ∧ (updateRequest c base e).URL = base ++ "/employee/_update/" ++ Itoa e.Id)
      ∧ (∀ k : Int, (deleteRequest c base k).URL = base ++ "/employee/_doc/" ++ Itoa k) := by
  refine ⟨?_, ?_, ?_, ?_, fun _ => ⟨rfl, rfl⟩, fun _ => rfl⟩
  · intro rd
    rw [DeleteDataHandler_world]
    exact DeleteData_sent env c base rest _ w hc (hnew _ _)
  · intro rd k hlo hhi hform
    rw [DeleteDataHandler_world, hform, Atoi_Itoa k hlo hhi]
    exact DeleteData_sent env c base rest _ w hc (hnew _ _)
  · intro r e hdec
    constructor
    · rw [InsertDataHandler_world, hdec]
      exact InsertData_sent env c base rest e w hc (hnew _ _)
    · rw [UpdateDataHandler_world, hdec]
      exact UpdateData_sent env c base rest e w hc (hnew _ _)
  · intro r hdec
    constructor
    · rw [InsertDataHandler_world, hdec]; rfl
    · rw [UpdateDataHandler_world, hdec]; rfl

/-- C8, amended, at a delete of the id `abc`, a delete of the id -12, and an
insert and an update of a record with id 7. -/
theorem handlers_forward_decoded_id_witness :
    (DeleteDataHandler downEnv (NewClient "") ⟨"", [("id", "abc")]⟩ World.init).2.sent
        = World.init.sent ++ [deleteRequest (NewClient "") "http://localhost:9200"
            (Atoi (Inbound.FormValue ⟨"", [("id", "abc")]⟩ "id")).1]
      ∧ (DeleteDataHandler downEnv (NewClient "") ⟨"", [("id", "-12")]⟩ World.init).2.sent
        = World.init.sent ++ [deleteRequest (NewClient "") "http://localhost:9200" (-12)]
      ∧ ((InsertDataHandler downEnv (NewClient "") ⟨"alice", []⟩ World.init).2.sent
          = World.init.sent ++ [insertRequest (NewClient "") "http://localhost:9200" alice]
        ∧ (UpdateDataHandler downEnv (NewClient "") ⟨"alice", []⟩ World.init).2.sent
          = World.init.sent ++ [updateRequest (NewClient "") "http://localhost:9200" alice])
      ∧ ((InsertDataHandler nilDecodeEnv (NewClient "") ⟨"", []⟩ World.init).2.sent
          = World.init.sent
        ∧ (UpdateDataHandler nilDecodeEnv (NewClient "") ⟨"", []⟩ World.init).2.sent
          = World.init.sent) :=
  ⟨(handlers_forward_decoded_id downEnv (NewClient "") "http://localhost:9200" [] World.init
      rfl (fun _ _ => rfl)).1 ⟨"", [("id", "abc")]⟩,
   (handlers_forward_decoded_id downEnv (NewClient "") "http://localhost:9200" [] World.init
      rfl (fun _ _ => rfl)).2.1 ⟨"", [("id", "-12")]⟩ (-12) (by decide) (by decide) (by decide),
   (handlers_forward_decoded_id downEnv (NewClient "") "http://localhost:9200" [] World.init
      rfl (fun _ _ => rfl)).2.2.1 ⟨"alice", []⟩ alice rfl,
   (handlers_forward_decoded_id nilDecodeEnv (NewClient "") "http://localhost:9200" []
      World.init rfl (fun _ _ => rfl)).2.2.2.1 ⟨"", []⟩ rfl⟩

/-! ## C6: the errors of the Engine Client, by operation and by step -/

theorem failingEnv_failsAt (step : Step) (e0 : GoError) (w : World) :
    (failingEnv step e0).failsAt w e0 step := by
  cases step
  · intro _ _; rfl
  · exact ⟨fun _ _ => rfl, fun _ => rfl⟩
  · exact ⟨fun _ _ => rfl, 200, fun _ => rfl⟩

theorem append_right_cancel_string (a b c : String) (h : a ++ c = b ++ c) : a = b := by
  have hd : (a ++ c).data = (b ++ c).data := by rw [h]
  simp only [String.data_append] at hd
  exact String.ext (List.append_cancel_right hd)

/-- C6 as stated fails, in three ways: when the transport fails, `CheckHealth`
returns the transport's error as it is, with no message of its own; when request
construction fails, `InsertData` panics; when the body read fails, the message
of `SearchData` names the insert operation. -/
theorem client_errors_not_uniform :
    ¬ WrapsNaming .checkHealth .transport (failingEnv .transport connectionRefused)
        (NewClient "") alice World.init connectionRefused
      ∧ (Op.checkHealth.run (failingEnv .transport connectionRefused) (NewClient "") alice
          World.init = Result.err connectionRefused)
      ∧ ¬ WrapsNaming .insert .construct (failingEnv .construct unexpectedEOF)
        (NewClient "") alice World.init unexpectedEOF
      ∧ (Op.insert.run (failingEnv .construct unexpectedEOF) (NewClient "") alice World.init
          = Result.panic Panic.nilDereference)
      ∧ ¬ WrapsNaming .search .read (failingEnv .read unexpectedEOF)
        (NewClient "") alice World.init unexpectedEOF
      ∧ (Op.search.run (failingEnv .read unexpectedEOF) (NewClient "") alice World.init
          = Result.err (GoError.errorString
              ("failed read insert data response: " ++ unexpectedEOF.Error))) := by
  refine ⟨?_, rfl, ?_, rfl, ?_, rfl⟩
  · rintro ⟨pre, hrun, -⟩
    have h : Result.err connectionRefused
        = (Result.err (GoError.errorString (pre ++ connectionRefused.Error)) : Result Unit) := hrun
    simp [connectionRefused] at h
  · rintro ⟨pre, hrun, -⟩
    have h : (Result.panic Panic.nilDereference : Result Unit)
        = Result.err (GoError.errorString (pre ++ unexpectedEOF.Error)) := hrun
    simp at h
  · rintro ⟨pre, hrun, hnames⟩
    have h : (Result.err (GoError.errorString
          ("failed read insert data response: " ++ unexpectedEOF.Error)) : Result Unit)
        = Result.err (GoError.errorString (pre ++ unexpectedEOF.Error)) := hrun
    simp only [Result.err.injEq, GoError.errorString.injEq] at h
    have hpre := append_right_cancel_string _ _ _ h
    subst hpre
    revert hnames
    decide

/-- C6, amended: for createIndex, insert, update, search and delete, a failure
of the transport, and for all of these but search a failure of the body read,
makes the operation return an error whose text is a message naming that
operation and that step, and no other operation or step, followed by the text
of the underlying error. `CheckHealth` returns the error of request construction
and the error of the transport as they are, and wraps the error of the body read
in a message that names the health check. -/
theorem client_errors_wrapped (op : Op) (step : Step) (env env₂ : Env) (c : Client)
    (base : String) (rest : List String) (e : Employee) (w : World) (e0 : GoError)
    (hc : c.cfg.Addresses = base :: rest)
    (hcov : wrapsUnderOwnName op step = true)
    (hfail : env.failsAt w e0 step)
    (hfail₂ : env₂.failsAt w e0 .construct) :
    WrapsNaming op step env c e w e0
      ∧ Op.checkHealth.run env₂ c e w = Result.err e0
      ∧ Op.checkHealth.run env c e w = Result.err
          (match step with
           | .read => GoError.errorString ("failed check Elasticsearch health: " ++ e0.Error)
           | _ => e0) := by
  have h₂ : Op.checkHealth.run env₂ c e w = Result.err e0 := by
    have hnew : ∀ method url, env₂.newRequestErr method url = some e0 := hfail₂
    simp only [Op.run, CheckHealth, hc, NewRequest, hnew]
  cases step with
  | construct => cases op <;> exact absurd hcov (by decide)
  | transport =>
    obtain ⟨hnew, hrt⟩ := hfail
    refine ⟨?_, h₂, by simp only [Op.run, CheckHealth, hc, NewRequest, hnew, Do, hrt]⟩
    cases op with
    | checkHealth => exact absurd hcov (by decide)
    | createIndex =>
      exact ⟨"failed to make a http call to create an index: ",
        by simp only [Op.run, CreateIndex, hc, NewRequest, hnew, Do, hrt, Errorf], by decide⟩
    | insert =>
      exact ⟨"failed to make a http call to insert data: ",
        by simp only [Op.run, InsertData, hc, NewRequest, hnew, Do, hrt, Errorf], by decide⟩
    | update =>
      exact ⟨"failed to make a http call to update data: ",
        by simp only [Op.run, UpdateData, hc, NewRequest, hnew, Do, hrt, Errorf], by decide⟩
    | search =>
      exact ⟨"failed to make a http call to search data: ",
        by simp only [Op.run, SearchData, hc, NewRequest, hnew, Do, hrt, Errorf, Result.void],
        by decide⟩
    | delete =>
      exact ⟨"failed to make a http call to delete data: ",
        by simp only [Op.run, DeleteData, hc, NewRequest, hnew, Do, hrt, Errorf], by decide⟩
  | read =>
    obtain ⟨hnew, status, hrt⟩ := hfail
    refine ⟨?_, h₂, by simp only [Op.run, CheckHealth, hc, NewRequest, hnew, Do, hrt, Errorf]⟩
    cases op with
    | checkHealth => exact absurd hcov (by decide)
    | createIndex =>
      exact ⟨"failed read create index response: ",
        by simp only [Op.run, CreateIndex, hc, NewRequest, hnew, Do, hrt, Errorf], by decide⟩
    | insert =>
      exact ⟨"failed read insert data response: ",
        by simp only [Op.run, InsertData, hc, NewRequest, hnew, Do, hrt, Errorf], by decide⟩
    | update =>
      exact ⟨"failed read update data response: ",
        by simp only [Op.run, UpdateData, hc, NewRequest, hnew, Do, hrt, Errorf], by decide⟩
    | search => exact absurd hcov (by decide)
    | delete =>
      exact ⟨"failed read delete data response: ",
        by simp only [Op.run, DeleteData, hc, NewRequest, hnew, Do, hrt, Errorf], by decide⟩

/-- C6, amended, at a delete whose answer cannot be read. -/
theorem client_errors_wrapped_witness :
    WrapsNaming .delete .read (failingEnv .read unexpectedEOF) (NewClient "") alice World.init
        unexpectedEOF
      ∧ Op.checkHealth.run (failingEnv .construct unexpectedEOF) (NewClient "") alice World.init
          = Result.err unexpectedEOF
      ∧ Op.checkHealth.run (failingEnv .read unexpectedEOF) (NewClient "") alice World.init
          = Result.err (GoError.errorString
              ("failed check Elasticsearch health: " ++ unexpectedEOF.Error)) :=
  client_errors_wrapped .delete .read (failingEnv .read unexpectedEOF)
    (failingEnv .construct unexpectedEOF) (NewClient "") "http://localhost:9200" [] alice
    World.init unexpectedEOF rfl rfl (failingEnv_failsAt _ _ _) (failingEnv_failsAt _ _ _)

/-! ## C10: seeding -/

theorem seedRequests_succ (c : Client) (base : String) (i : Int) (m : Nat) :
    seedRequests c base i (m + 1)
      = insertRequest c base (seedEmployee i) :: seedRequests c base (i + 1) m := by
  unfold seedRequests
  rw [List.range_succ_eq_map, List.map_cons, List.map_map]
  congr 1
  · simp
  · apply List.map_congr_left
    intro j _
    simp only [Function.comp]
    congr 2
    push_cast
    ring

theorem seedRequests_snoc (c : Client) (base : String) (i : Int) (m : Nat) :
    seedRequests c base i (m + 1)
      = seedRequests c base i m ++ [insertRequest c base (seedEmployee (i + (m : Int)))] := by
  simp [seedRequests, List.range_succ]

/-- An insert that does not panic has handed its request to the transport. -/
theorem InsertData_sent_of_returns (env : Env) (c : Client) (base : String)
    (rest : List String) (e : Employee) (w : World) (hc : c.cfg.Addresses = base :: rest)
    (hret : ∀ p, (InsertData env c (some e) w).1 ≠ .panic p) :
    (InsertData env c (some e) w).2.sent = w.sent ++ [insertRequest c base e] := by
  cases hnew : env.newRequestErr "PUT" (base ++ "/employee/_doc/" ++ Itoa e.Id) with
  | none => exact InsertData_sent env c base rest e w hc hnew
  | some err =>
    exfalso
    apply hret Panic.nilDereference
    simp only [InsertData, hc, NewRequest, hnew]

/-- The loop of `SeedingData` while every insert succeeds: it returns nil after
one insert for each remaining id. -/
theorem seedLoop_ok (env : Env) (c : Client) (base : String) (rest : List String) (n : Int)
    (hc : c.cfg.Addresses = base :: rest) :
    ∀ (m : Nat) (i : Int) (w : World), (n - i).toNat = m →
      (∀ j : Nat, j < m → ∀ wj : World, wj.sent = w.sent ++ seedRequests c base i j →
        (InsertData env c (some (seedEmployee (i + (j : Int)))) wj).1 = .ok ()) →
      (seedLoop env c n i w).1 = .ok ()
        ∧ (seedLoop env c n i w).2.sent = w.sent ++ seedRequests c base i m := by
  intro m
  induction m with
  | zero =>
    intro i w hm _
    have hge : ¬ i < n := by omega
    rw [seedLoop]
    simp [hge, seedRequests]
  | succ m ih =>
    intro i w hm hok
    have hlt : i < n := by omega
    have h0 := hok 0 (Nat.succ_pos m) w (by simp [seedRequests])
    simp only [Nat.cast_zero, add_zero] at h0
    have hsent := InsertData_sent_of_returns env c base rest (seedEmployee i) w hc
      (by intro p hp; rw [h0] at hp; cases hp)
    rw [seedLoop]
    simp only [hlt, if_true]
    rcases hres : InsertData env c (some (seedEmployee i)) w with ⟨res, w'⟩
    rw [hres] at h0 hsent
    simp only at h0 hsent
    subst h0
    have hstep := ih (i + 1) w' (by omega) (by
      intro j hj wj hwj
      have := hok (j + 1) (Nat.succ_lt_succ hj) wj (by
        rw [hwj, hsent, seedRequests_succ]; simp)
      have hcast : i + ((j + 1 : Nat) : Int) = i + 1 + (j : Int) := by push_cast; ring
      rw [hcast] at this
      exact this)
    refine ⟨hstep.1, ?_⟩
    rw [hstep.2, hsent, seedRequests_succ]
    simp

/-- The loop of `SeedingData` when the inserts before the id `i + m` succeed and
the insert for `i + m` returns an error: the loop stops there. -/
theorem seedLoop_err (env : Env) (c : Client) (base : String) (rest : List String) (n : Int)
    (insErr : GoError) (hc : c.cfg.Addresses = base :: rest) :
    ∀ (m : Nat) (i : Int) (w : World), i + (m : Int) < n →
      (∀ j : Nat, j < m → ∀ wj : World, wj.sent = w.sent ++ seedRequests c base i j →
        (InsertData env c (some (seedEmployee (i + (j : Int)))) wj).1 = .ok ()) →
      (∀ wk : World, wk.sent = w.sent ++ seedRequests c base i m →
        (InsertData env c (some (seedEmployee (i + (m : Int)))) wk).1 = .err insErr) →
      (seedLoop env c n i w).1
          = .err (Errorf ("failed seeding data with id " ++ Itoa (i + (m : Int)) ++ ": ") insErr)
        ∧ (seedLoop env c n i w).2.sent = w.sent ++ seedRequests c base i (m + 1) := by
  intro m
  induction m with
  | zero =>
    intro i w hlt _ hfail
    simp only [Nat.cast_zero, add_zero] at hlt hfail ⊢
    have h0 := hfail w (by simp [seedRequests])
    have hsent := InsertData_sent_of_returns env c base rest (seedEmployee i) w hc
      (by intro p hp; rw [h0] at hp; cases hp)
    rw [seedLoop]
    simp only [hlt, if_true]
    rcases hres : InsertData env c (some (seedEmployee i)) w with ⟨res, w'⟩
    rw [hres] at h0 hsent
    simp only at h0 hsent
    subst h0
    simp [hsent, seedRequests, List.range_succ]
  | succ m ih =>
    intro i w hlt hok hfail
    have hlt' : i < n := by omega
    have h0 := hok 0 (Nat.succ_pos m) w (by simp [seedRequests])
    simp only [Nat.cast_zero, add_zero] at h0
    have hsent := InsertData_sent_of_returns env c base rest (seedEmployee i) w hc
      (by intro p hp; rw [h0] at hp; cases hp)
    rw [seedLoop]
    simp only [hlt', if_true]
    rcases hres : InsertData env c (some (seedEmployee i)) w with ⟨res, w'⟩
    rw [hres] at h0 hsent
    simp only at h0 hsent
    subst h0
    have hcast : ∀ j : Nat, i + ((j + 1 : Nat) : Int) = i + 1 + (j : Int) := by
      intro j; push_cast; ring
    have hstep := ih (i + 1) w' (by rw [← hcast]; exact hlt) (by
      intro j hj wj hwj
      have := hok (j + 1) (Nat.succ_lt_succ hj) wj (by
        rw [hwj, hsent, seedRequests_succ]; simp)
      rw [hcast] at this
      exact this) (by
      intro wk hwk
      have := hfail wk (by rw [hwk, hsent, seedRequests_succ]; simp)
      rw [hcast] at this
      exact this)
    rw [hcast]
    refine ⟨hstep.1, ?_⟩
    rw [hstep.2, hsent, seedRequests_succ c base i (m + 1)]
    simp

theorem InsertData_result_ok (env : Env) (c : Client) (base : String) (rest : List String)
    (e : Employee) (w : World) (resp : Response) (body : String)
    (hc : c.cfg.Addresses = base :: rest)
    (hnew : ∀ method url, env.newRequestErr method url = none)
    (hrt : ∀ req, env.roundTrip w.sent req = .ok resp) (hb : resp.Body = .ok body) :
    (InsertData env c (some e) w).1 = .ok () := by
  simp only [InsertData, hc, NewRequest, hnew, Do, hrt, hb]

theorem InsertData_result_transport (env : Env) (c : Client) (base : String)
    (rest : List String) (e : Employee) (w : World) (e0 : GoError)
    (hc : c.cfg.Addresses = base :: rest)
    (hnew : ∀ method url, env.newRequestErr method url = none)
    (hrt : ∀ req, env.roundTrip w.sent req = .error e0) :
    (InsertData env c (some e) w).1
      = .err (Errorf "failed to make a http call to insert data: " e0) := by
  simp only [InsertData, hc, NewRequest, hnew, Do, hrt]

theorem wrap64_of_small (x : Int) (h : -(2 ^ 53) < x ∧ x < 2 ^ 53) : wrap64 x = x := by
  unfold wrap64
  have h1 : (x + 2 ^ 63) % 2 ^ 64 = x + 2 ^ 63 :=
    Int.emod_eq_of_lt (by omega) (by omega)
  omega

theorem float64OfInt_of_small (x : Int) (h : -(2 ^ 53) < x ∧ x < 2 ^ 53) :
    float64OfInt x = Float64.ofRat (x : ℚ) := by
  unfold float64OfInt
  have hlt : x.natAbs < 2 ^ 53 := by omega
  simp only [hlt, if_true]

/-- C10 as stated fails on the salary: for the id `2^62` the product `i * 100`
wraps around to 0 on 64-bit integers, so the one record that
`SeedingData(2^62, 2^62 + 1)` inserts carries the salary 0, not `100 * 2^62`. -/
theorem SeedingData_salary_wraps :
    (SeedingData nilDecodeEnv (NewClient "") (2 ^ 62) (2 ^ 62 + 1) World.init).2.sent
        = [insertRequest (NewClient "") "http://localhost:9200"
            ⟨2 ^ 62, "person4611686018427387904", "address4611686018427387904",
              Float64.ofRat 0⟩]
      ∧ Float64.ofRat 0 ≠ Float64.ofRat (100 * 2 ^ 62) := by
  constructor
  · have h := (seedLoop_ok nilDecodeEnv (NewClient "") "http://localhost:9200" []
      (2 ^ 62 + 1) rfl 1 (2 ^ 62) World.init (by decide) (by
        intro j _ wj _
        exact InsertData_result_ok nilDecodeEnv (NewClient "") "http://localhost:9200" [] _ wj
          ⟨200, .ok "ok"⟩ "ok" rfl (fun _ _ => rfl) (fun _ => rfl) rfl)).2
    rw [SeedingData, h]
    have he : seedEmployee (2 ^ 62 + ((0 : Nat) : Int))
        = ⟨2 ^ 62, "person4611686018427387904", "address4611686018427387904",
            Float64.ofRat 0⟩ := by
      decide
    simp only [seedRequests, List.range_succ, List.range_zero, List.nil_append, List.map_cons,
      List.map_nil, he]
    rfl
  · intro h
    injection h with h
    norm_num at h

/-- C10, amended. While every insert succeeds, `SeedingData(idStart, n)` hands to
the transport exactly max(0, n - idStart) insert requests, one for each id i
with idStart <= i < n in ascending order, each carrying the record with id i,
name "person"+decimal(i), address "address"+decimal(i) and, as salary, the
`float64` of the 64-bit product i*100; it then returns nil. When n <= idStart
nothing is inserted and nil is returned, whatever the engine does. When the
inserts before an id k succeed and the insert for k returns an error, the
requests stop with the one for k and the returned error names k. The salary is
100*i whenever the product is below 2^53 in absolute value. -/
theorem SeedingData_inserts (c : Client) (base : String) (rest : List String)
    (idStart n : Int) (w : World)
    (hc : c.cfg.Addresses = base :: rest) :
    (∀ env : Env,
        (∀ i, idStart ≤ i → i < n → ∀ wi : World,
          wi.sent = w.sent ++ seedRequests c base idStart (i - idStart).toNat →
          (InsertData env c (some (seedEmployee i)) wi).1 = .ok ()) →
        (SeedingData env c idStart n w).1 = Result.ok ()
          ∧ (SeedingData env c idStart n w).2.sent = w.sent ++
              (List.range (n - idStart).toNat).map (fun j : Nat => insertRequest c base
                ⟨idStart + j, "person" ++ Itoa (idStart + j), "address" ++ Itoa (idStart + j),
                  float64OfInt (wrap64 ((idStart + j) * 100))⟩)
          ∧ ((SeedingData env c idStart n w).2.sent.length : Int)
              = w.sent.length + max 0 (n - idStart))
      ∧ (n ≤ idStart → ∀ env : Env, SeedingData env c idStart n w = (Result.ok (), w))
      ∧ (∀ (env : Env) (k : Int) (insErr : GoError), idStart ≤ k → k < n →
          (∀ i, idStart ≤ i → i < k → ∀ wi : World,
            wi.sent = w.sent ++ seedRequests c base idStart (i - idStart).toNat →
            (InsertData env c (some (seedEmployee i)) wi).1 = .ok ()) →
          (∀ wk : World,
            wk.sent = w.sent ++ seedRequests c base idStart (k - idStart).toNat →
            (InsertData env c (some (seedEmployee k)) wk).1 = .err insErr) →
          (SeedingData env c idStart n w).1 = Result.err (GoError.errorString
              ("failed seeding data with id " ++ Itoa k ++ ": " ++ insErr.Error))
            ∧ (SeedingData env c idStart n w).2.sent = w.sent ++
              (List.range ((k - idStart).toNat + 1)).map (fun j : Nat => insertRequest c base
                ⟨idStart + j, "person" ++ Itoa (idStart + j), "address" ++ Itoa (idStart + j),
                  float64OfInt (wrap64 ((idStart + j) * 100))⟩))
      ∧ (∀ i : Int, -(2 ^ 53) < i * 100 → i * 100 < 2 ^ 53 →
          (seedEmployee i).Salary = Float64.ofRat ((100 * i : Int) : ℚ)) := by
  refine ⟨?_, ?_, ?_, ?_⟩
  · intro env hok
    have h₁ := seedLoop_ok env c base rest n hc (n - idStart).toNat idStart w rfl (by
      intro j hj wj hwj
      refine hok (idStart + j) (by omega) (by omega) wj ?_
      rw [hwj]
      congr 2
      omega)
    refine ⟨h₁.1, h₁.2, ?_⟩
    have hlen : (SeedingData env c idStart n w).2.sent.length
        = w.sent.length + (n - idStart).toNat := by
      have h2 := h₁.2
      unfold SeedingData
      rw [h2]
      simp [seedRequests]
    rw [hlen]
    push_cast
    omega
  · intro hle env
    have hge : ¬ idStart < n := by omega
    rw [SeedingData, seedLoop]
    simp only [hge, if_false]
  · intro env k insErr hk₁ hk₂ hbefore hfail
    have hkm : idStart + (((k - idStart).toNat : Nat) : Int) = k := by omega
    have h₂ := seedLoop_err env c base rest n insErr hc (k - idStart).toNat idStart w
      (by omega) (by
        intro j hj wj hwj
        refine hbefore (idStart + j) (by omega) (by omega) wj ?_
        rw [hwj]
        congr 2
        omega) (by
        intro wk hwk
        rw [hkm]
        exact hfail wk hwk)
    rw [hkm] at h₂
    exact ⟨h₂.1, h₂.2⟩
  · intro i hlo hhi
    have hw := wrap64_of_small (i * 100) ⟨hlo, hhi⟩
    show float64OfInt (wrap64 (i * 100)) = _
    rw [hw, float64OfInt_of_small _ ⟨hlo, hhi⟩]
    congr 2
    ring

/-- C10, amended, at `SeedingData(3, 6)` on an engine that answers every insert,
at `SeedingData(6, 3)`, at `SeedingData(3, 6)` on an engine that cannot be
reached after the first request, so that the insert for the id 4 fails, and at
the salary of the id 5. -/
theorem SeedingData_inserts_witness :
    ((SeedingData nilDecodeEnv (NewClient "") 3 6 World.init).1 = Result.ok ()
      ∧ (SeedingData nilDecodeEnv (NewClient "") 3 6 World.init).2.sent = World.init.sent ++
          (List.range ((6 : Int) - 3).toNat).map (fun j : Nat =>
            insertRequest (NewClient "") "http://localhost:9200"
            ⟨3 + j, "person" ++ Itoa (3 + j), "address" ++ Itoa (3 + j),
              float64OfInt (wrap64 ((3 + j) * 100))⟩)
      ∧ ((SeedingData nilDecodeEnv (NewClient "") 3 6 World.init).2.sent.length : Int)
          = World.init.sent.length + max 0 (6 - 3))
      ∧ SeedingData downEnv (NewClient "") 6 3 World.init = (Result.ok (), World.init)
      ∧ ((SeedingData (failsAfterEnv 1) (NewClient "") 3 6 World.init).1
          = Result.err (GoError.errorString
          ("failed seeding data with id " ++ Itoa 4 ++ ": "
            ++ (Errorf "failed to make a http call to insert data: " connectionRefused).Error))
        ∧ (SeedingData (failsAfterEnv 1) (NewClient "") 3 6 World.init).2.sent
          = World.init.sent ++
          (List.range (((4 : Int) - 3).toNat + 1)).map (fun j : Nat =>
            insertRequest (NewClient "") "http://localhost:9200"
            ⟨3 + j, "person" ++ Itoa (3 + j), "address" ++ Itoa (3 + j),
              float64OfInt (wrap64 ((3 + j) * 100))⟩))
      ∧ (seedEmployee 5).Salary = Float64.ofRat ((100 * 5 : Int) : ℚ) :=
  ⟨(SeedingData_inserts (NewClient "") "http://localhost:9200" [] 3 6 World.init rfl).1
      nilDecodeEnv (fun i _ _ wi _ =>
        InsertData_result_ok nilDecodeEnv (NewClient "") "http://localhost:9200" [] _ wi
          ⟨200, .ok "ok"⟩ "ok" rfl (fun _ _ => rfl) (fun _ => rfl) rfl),
   (SeedingData_inserts (NewClient "") "http://localhost:9200" [] 6 3 World.init rfl).2.1
      (by decide) downEnv,
   (SeedingData_inserts (NewClient "") "http://localhost:9200" [] 3 6 World.init rfl).2.2.1
      (failsAfterEnv 1) 4 (Errorf "failed to make a http call to insert data: " connectionRefused)
      (by decide) (by decide)
      (by
        intro i h3 h4 wi hwi
        have hi : i = 3 := by omega
        subst hi
        refine InsertData_result_ok (failsAfterEnv 1) (NewClient "") "http://localhost:9200" [] _
          wi ⟨200, .ok "ok"⟩ "ok" rfl (fun _ _ => rfl) ?_ rfl
        intro req
        simp [failsAfterEnv, hwi, seedRequests, World.init])
      (by
        intro wk hwk
        refine InsertData_result_transport (failsAfterEnv 1) (NewClient "")
          "http://localhost:9200" [] _ wk connectionRefused rfl (fun _ _ => rfl) ?_
        intro req
        simp [failsAfterEnv, hwk, seedRequests, World.init]),
   (SeedingData_inserts (NewClient "") "http://localhost:9200" [] 3 6 World.init rfl).2.2.2
      5 (by decide) (by decide)⟩

/-! ## C9: the query of a search as JSON text -/

/-- C9, at keywords with a double quote: the keyword goes into the query text
as it is. For the keyword made of one double quote the body that `SearchData`
sends is not well-formed JSON at any depth of reading; for a keyword that closes
the string and opens another member the body is well-formed but is a different
query, with a second member and another value at `name`. A keyword without
special characters gives the match query on it. -/
theorem searchQuery_not_escaped :
    (SearchData noHitEnv (NewClient "") "\"" World.init).2.sent.map Request.Body
        = [Body.text (searchQuery "\"")]
      ∧ (∀ v, ¬ DenotesJson (searchQuery "\"") v)
      ∧ parseJson (searchQuery "x\", \"address\": \"y")
          = some (Json.obj [("query", Json.obj [("match",
              Json.obj [("name", Json.str "x"), ("address", Json.str "y")])])])
      ∧ Json.obj [("query", Json.obj [("match",
              Json.obj [("name", Json.str "x"), ("address", Json.str "y")])])]
          ≠ matchQuery "x\", \"address\": \"y"
      ∧ parseJson (searchQuery "alice") = some (matchQuery "alice") := by
  refine ⟨rfl, ?_, rfl, by simp [matchQuery], rfl⟩
  rintro v ⟨fuel, rest, hread, -⟩
  have hnone : readValue fuel (searchQuery "\"").data = none := by
    rcases fuel with _ | _ | _ | _ | _ | _ | _ | fuel <;> rfl
  rw [hnone] at hread
  cases hread

end ElasticCRUD
